import Mathlib

/-!
# Verification of the agent-vm host-side proxy daemons

A shallow embedding, in Lean 4, of the pure decision logic of the three proxy
daemons of this repository:

* `github-mcp-proxy.py`  — MCP tool-call repo-scope policy, header lockdown,
  retry loop;
* `github-git-proxy.py`  — path-scoped Basic-auth credential injection,
  retry loop;
* `claude-vm-proxy.py`   — OAuth expiry detection, token refresh, credential
  persistence, single-attempt upstream call.

JSON values are modelled by the inductive type `Json`; Python dicts holding
JSON data are modelled as association lists with Python-dict update semantics
(`dictSet`: replace in place if the key exists, else append — Python dicts
preserve insertion order).  Machine-level concerns that the claims do not
touch (TLS, sockets, float rounding at the 2^53 scale, unicode word classes
beyond ASCII, underscore separators accepted by Python number parsing) are
noted at the definition they would affect; every theorem's hypotheses keep
its inputs inside the modelled domain.
-/

namespace AgentVM

/-! ## JSON values

`Json.num` carries an `Int`: every numeric value appearing in the claims
(epoch milliseconds, `expires_in` seconds) is integral.  Python `json.loads`
produces floats for fractional literals; those are outside the modelled
domain and no theorem below quantifies over them.
-/

inductive Json where
  | null : Json
  | bool (b : Bool) : Json
  | num (n : Int) : Json
  | str (s : String) : Json
  | arr (elems : List Json) : Json
  | obj (members : List (String × Json)) : Json
  deriving Repr

/-- Python truthiness (`bool(v)`) of a JSON value: `None`, `False`, `0`,
`""`, `[]`, `{}` are falsy, everything else truthy. -/
def pyTruthy : Json → Bool
  | .null => false
  | .bool b => b
  | .num n => n != 0
  | .str s => s != ""
  | .arr l => !l.isEmpty
  | .obj m => !m.isEmpty

/-- Python `v == enforced` where `enforced` is a `str`: true exactly when `v`
is the same string (a non-`str` value never equals a `str`). -/
def Json.eqStr : Json → String → Bool
  | .str s, t => s = t
  | _, _ => false

/-- `d.get(k)` on a Python dict modelled as an association list: the first
binding of `k` (parsed JSON objects have unique keys, so first = only). -/
def dictGet {β : Type} (k : String) : List (String × β) → Option β
  | [] => none
  | p :: t => if p.1 = k then some p.2 else dictGet k t

/-- `d[k] = v` on a Python dict: replace the value in place if the key is
present (keeping its position), otherwise append the new binding at the end
(Python dicts preserve insertion order). -/
def dictSet {β : Type} (d : List (String × β)) (k : String) (v : β) :
    List (String × β) :=
  if d.any (fun p => p.1 = k) then
    d.map (fun p => if p.1 = k then (k, v) else p)
  else
    d ++ [(k, v)]

theorem dictGet_map_set {β : Type} (d : List (String × β)) (k : String) (v : β) :
    dictGet k (d.map fun p => if p.1 = k then (k, v) else p) =
      if d.any (fun p => p.1 = k) then some v else none := by
  induction d with
  | nil => simp [dictGet]
  | cons p t ih =>
    by_cases hp : p.1 = k
    · simp [dictGet, hp]
    · simp only [List.map_cons, if_neg hp, dictGet, ih]
      simp only [List.any_cons, decide_eq_false hp, Bool.false_or]

theorem dictGet_map_set_ne {β : Type} (d : List (String × β)) (k k' : String) (v : β)
    (hne : k' ≠ k) :
    dictGet k' (d.map fun p => if p.1 = k then (k, v) else p) = dictGet k' d := by
  induction d with
  | nil => simp [dictGet]
  | cons p t ih =>
    by_cases hp : p.1 = k
    · have : ¬ k = k' := fun h => hne h.symm
      simp [dictGet, hp, this, ih]
    · by_cases hp' : p.1 = k'
      · simp [dictGet, hp, hp', hne, ih]
      · simp [dictGet, hp, hp', ih]

theorem dictGet_append_none {β : Type} {d : List (String × β)} {k : String}
    (h : dictGet k d = none) (e : List (String × β)) :
    dictGet k (d ++ e) = dictGet k e := by
  induction d with
  | nil => simp
  | cons p t ih =>
    simp only [dictGet] at h ⊢
    by_cases hp : p.1 = k
    · rw [if_pos hp] at h; exact absurd h (by simp)
    · rw [if_neg hp] at h ⊢; exact ih h

theorem dictGet_append_some {β : Type} {d : List (String × β)} {k : String} {v : β}
    (h : dictGet k d = some v) (e : List (String × β)) :
    dictGet k (d ++ e) = some v := by
  induction d with
  | nil => simp [dictGet] at h
  | cons p t ih =>
    simp only [dictGet] at h ⊢
    by_cases hp : p.1 = k
    · rw [if_pos hp] at h ⊢; exact h
    · rw [if_neg hp] at h ⊢; exact ih h

theorem dictGet_none_of_not_any {β : Type} {d : List (String × β)} {k : String}
    (h : ¬ (d.any (fun p => p.1 = k)) = true) : dictGet k d = none := by
  induction d with
  | nil => simp [dictGet]
  | cons p t ih =>
    simp only [List.any_cons, Bool.or_eq_true, decide_eq_true_eq, not_or] at h
    simp only [dictGet, if_neg h.1]
    exact ih h.2

theorem dictGet_dictSet_self {β : Type} (d : List (String × β)) (k : String) (v : β) :
    dictGet k (dictSet d k v) = some v := by
  unfold dictSet
  split
  case isTrue h => rw [dictGet_map_set, if_pos h]
  case isFalse h =>
    rw [dictGet_append_none (dictGet_none_of_not_any h)]
    simp [dictGet]

theorem dictGet_dictSet_ne {β : Type} (d : List (String × β)) (k k' : String) (v : β)
    (hne : k' ≠ k) : dictGet k' (dictSet d k v) = dictGet k' d := by
  unfold dictSet
  split
  case isTrue _ => exact dictGet_map_set_ne d k k' v hne
  case isFalse _ =>
    cases hd : dictGet k' d with
    | none =>
      rw [dictGet_append_none hd]
      have hkk : ¬ k = k' := fun h => hne h.symm
      simp [dictGet, hkk]
    | some w => rw [dictGet_append_some hd]

/-- Membership in a `dictSet` result comes from the old dict or is the new
binding. -/
theorem mem_dictSet {β : Type} {d : List (String × β)} {k : String} {v : β}
    {p : String × β} (hp : p ∈ dictSet d k v) : p ∈ d ∨ p = (k, v) := by
  unfold dictSet at hp
  split at hp
  · rcases List.mem_map.mp hp with ⟨q, hq, hqe⟩
    by_cases hqk : q.1 = k
    · right; rw [← hqe, if_pos hqk]
    · left; rw [← hqe, if_neg hqk]; exact hq
  · rcases List.mem_append.mp hp with h | h
    · left; exact h
    · right; simpa using h

/-! ## Python string primitives used by the proxies

Character classes follow Python's `re` module restricted to ASCII: the
queries and paths the claims quantify over are ASCII.  (Python's `\w`/`\s`
additionally match some non-ASCII code points; no claim depends on those.)
-/

/-- Python `str.lower()` for the ASCII header names involved here
(`Char.toLower` lowers exactly the ASCII letters). -/
def pyLower (s : String) : String := String.mk (s.toList.map Char.toLower)

/-- Python regex `\w` (ASCII part): letters, digits, underscore. -/
def pyIsWordChar (c : Char) : Bool := c.isAlphanum || c = '_'

/-- Python regex `\s` / `str.split()` / `str.strip()` whitespace (ASCII part). -/
def pyIsSpaceChar (c : Char) : Bool :=
  c = ' ' || c = '\t' || c = '\n' || c = '\r' || c = '\x0b' || c = '\x0c'

/-- Does the character list `s` start with `pat`? -/
def charsStartWith : List Char → List Char → Bool
  | [], _ => true
  | _ :: _, [] => false
  | a :: as, b :: bs => a = b && charsStartWith as bs

/-- Does `pat` occur as a contiguous sublist of `s`?  (Python `pat in s`.) -/
def charsContains : List Char → List Char → Bool
  | [], pat => pat.isEmpty
  | c :: rest, pat => charsStartWith pat (c :: rest) || charsContains rest pat

/-- Python `str.strip()`: remove leading and trailing whitespace. -/
def pyStrip (s : String) : String :=
  String.mk (((s.toList.dropWhile pyIsSpaceChar).reverse.dropWhile pyIsSpaceChar).reverse)

/-- Python `str.split()` (no argument): the maximal runs of non-whitespace
characters, in order.  Helper carrying the current (reversed) run. -/
def pyTokensGo : List Char → List Char → List (List Char)
  | cur, [] => if cur.isEmpty then [] else [cur.reverse]
  | cur, c :: rest =>
    if pyIsSpaceChar c then
      if cur.isEmpty then pyTokensGo [] rest else cur.reverse :: pyTokensGo [] rest
    else
      pyTokensGo (c :: cur) rest

def pyTokens (s : List Char) : List (List Char) := pyTokensGo [] s

/-! ### The two `re.finditer` scans of `_enforce_search_scope`

`re.finditer(r'\brepo:(\S+)', query)` (and the `\b(org|user):(\S+)` variant)
yields non-overlapping matches left to right.  Since the literal part has no
whitespace and the captured group `\S+` is a maximal non-whitespace run, each
match lies inside one whitespace-delimited token of the query, a token holds
at most one match (the group swallows the rest of the token), and the word
boundary `\b` is decided by the preceding character inside the token (at a
token start the preceding character is whitespace or nothing, so `\b` holds
there).  The scan is therefore: per token, the first position where the
previous character is not a word character and the literal follows with a
non-empty remainder. -/

/-- First match of `\b{lit}(\S+)` inside one token; returns the group. -/
def firstQualInToken (lit : List Char) : Bool → List Char → Option (List Char)
  | _, [] => none
  | prevWord, c :: rest =>
    if !prevWord && charsStartWith lit (c :: rest) && !(List.drop lit.length (c :: rest)).isEmpty then
      some (List.drop lit.length (c :: rest))
    else
      firstQualInToken lit (pyIsWordChar c) rest

/-- Group values of `re.finditer(r'\b{lit}(\S+)', query)` in match order. -/
def reQualifierValues (lit : String) (query : String) : List String :=
  ((pyTokens query.toList).filterMap (firstQualInToken lit.toList false)).map
    fun cs => String.mk cs

/-- First match of `\b(org|user):(\S+)` inside one token:
`(qualifier, value)`.  The alternation prefers `org` at a given position;
the two literals can never match at the same position. -/
def firstOrgUserInToken : Bool → List Char → Option (String × List Char)
  | _, [] => none
  | prevWord, c :: rest =>
    if !prevWord && charsStartWith ("org:".toList) (c :: rest) &&
        !(List.drop 4 (c :: rest)).isEmpty then
      some ("org", List.drop 4 (c :: rest))
    else if !prevWord && charsStartWith ("user:".toList) (c :: rest) &&
        !(List.drop 5 (c :: rest)).isEmpty then
      some ("user", List.drop 5 (c :: rest))
    else
      firstOrgUserInToken (pyIsWordChar c) rest

/-- `(qualifier, value)` pairs of `re.finditer(r'\b(org|user):(\S+)', query)`
in match order. -/
def reOrgUserMatches (query : String) : List (String × String) :=
  ((pyTokens query.toList).filterMap (firstOrgUserInToken false)).map
    fun p => (p.1, String.mk p.2)

/-! ## github-mcp-proxy.py: tool classification tables -/

def UNSCOPED_TOOLS : List String := ["get_me"]

def SEARCH_TOOLS : List String :=
  ["search_code", "search_repositories", "search_issues", "search_pull_requests"]

def BLOCKED_SEARCH_TOOLS : List String := ["search_users", "search_orgs"]

def ORG_TOOLS : List String := ["get_teams", "get_team_members", "list_issue_types"]

/-- The block of tools with owner/repo fields united into `KNOWN_TOOLS` in the
source (checked by the `REPO_FIELDS` loop). -/
def REPO_FIELD_TOOLS : List String :=
  ["create_branch", "create_or_update_file", "create_repository",
   "delete_file", "fork_repository", "get_commit", "get_file_contents",
   "get_latest_release", "get_release_by_tag", "get_tag",
   "list_branches", "list_commits", "list_releases", "list_tags",
   "push_files",
   "add_issue_comment", "assign_copilot_to_issue", "get_label",
   "issue_read", "issue_write", "list_issues", "sub_issue_write",
   "add_comment_to_pending_review", "add_reply_to_pull_request_comment",
   "create_pull_request", "list_pull_requests", "merge_pull_request",
   "pull_request_read", "pull_request_review_write",
   "request_copilot_review", "update_pull_request",
   "update_pull_request_branch",
   "get_repository_tree",
   "label_write", "list_label"]

def KNOWN_TOOLS : List String :=
  UNSCOPED_TOOLS ++ SEARCH_TOOLS ++ BLOCKED_SEARCH_TOOLS ++ ORG_TOOLS ++ REPO_FIELD_TOOLS

/-- Set membership `tool in TOOL_SET` where `tool` is the JSON value taken
from `params.get("name", "unknown")`: a non-string value is never a member of
a set of strings. -/
def toolInList (tool : Json) (l : List String) : Bool :=
  match tool with
  | .str s => l.contains s
  | _ => false

/-- `v.get(k)` for a parsed JSON value.  Python raises `AttributeError` when
`v` is not a dict; the claims only concern object-valued `req`/`params`, and
every theorem's hypotheses pin those shapes, so non-objects map to `none`
here. -/
def Json.get : Json → String → Option Json
  | .obj m, k => dictGet k m
  | _, _ => none

/-- Simplified Python `repr` of a parsed JSON value, used only inside
rejection messages (string escaping and container contents are not spelled
out; no claim inspects message internals). -/
def pyReprJson : Json → String
  | .str s => "'" ++ s ++ "'"
  | .num n => toString n
  | .bool true => "True"
  | .bool false => "False"
  | .null => "None"
  | .arr _ => "[...]"
  | .obj _ => "\x7b...\x7d"

/-- The string a known tool name denotes (known tools are always strings). -/
def toolStr : Json → String
  | .str s => s
  | _ => ""

/-! ## github-mcp-proxy.py: scope enforcement -/

/-- `_enforce_search_scope(tool, args)` from github-mcp-proxy.py.  The
`query` argument defaults to `""` when absent; a present non-string `query`
raises `TypeError` in Python and is outside the modelled domain (all
theorems hypothesise an absent or string-valued `query`). -/
def _enforce_search_scope (owner repo tool : String) (args : List (String × Json)) :
    Option (List (String × Json)) × Option String :=
  if owner = "" || repo = "" then (some args, none)
  else
    let query := match dictGet "query" args with
      | some (.str s) => s
      | _ => ""
    let expected := owner ++ "/" ++ repo
    let scope := "repo:" ++ expected
    match (reQualifierValues "repo:" query).find? (fun g => g != expected) with
    | some g =>
      (none, some ("Repo scope violation: " ++ tool ++ " query contains repo:" ++ g ++
        ", expected repo:" ++ expected))
    | none =>
      match reOrgUserMatches query with
      | (qualifier, value) :: _ =>
        (none, some ("Repo scope violation: " ++ tool ++ " query contains " ++ qualifier ++
          ":" ++ value ++ " (not allowed, use repo: scope)"))
      | [] =>
        if charsContains query.toList scope.toList then (some args, none)
        else (some (dictSet args "query" (.str (pyStrip (scope ++ " " ++ query)))), none)

/-- `REPO_FIELDS.items()`: the enforced owner/repo argument fields. -/
def REPO_FIELDS (owner repo : String) : List (String × String) :=
  [("owner", owner), ("repo", repo)]

/-- The `for field, enforced_value in REPO_FIELDS.items()` loop of
`enforce_repo_scope`: reject a present-but-different field, inject an absent
one (tracking whether anything was injected in the `modified` flag). -/
def repoFieldLoop (tool : String) :
    List (String × String) → List (String × Json) → Bool →
    Except String (List (String × Json) × Bool)
  | [], args, modified => .ok (args, modified)
  | (field, enforced) :: rest, args, modified =>
    if enforced = "" then repoFieldLoop tool rest args modified
    else
      match dictGet field args with
      | some v =>
        if v.eqStr enforced then repoFieldLoop tool rest args modified
        else
          .error ("Repo scope violation: " ++ tool ++ " called with " ++ field ++ "=" ++
            pyReprJson v ++ ", expected " ++ pyReprJson (Json.str enforced))
      | none => repoFieldLoop tool rest (dictSet args field (.str enforced)) true

/-- `req["params"]["arguments"] = args` followed by re-serialisation target:
the request value with its `params.arguments` replaced.  In the source this
line only runs after the tool name was read out of `params`, so `params`
exists and is a dict; other shapes (which would raise `KeyError` /
`TypeError`) return `req` unchanged and are unreachable in the theorems. -/
def setParamsArguments (req : Json) (args : List (String × Json)) : Json :=
  match req with
  | .obj m =>
    match dictGet "params" m with
    | some (.obj pm) => .obj (dictSet m "params" (.obj (dictSet pm "arguments" (.obj args))))
    | _ => .obj m
  | _ => req

/-! ### `json.dumps` (default separators, `ensure_ascii=True`) -/

def hexDigit (n : Nat) : Char :=
  if n < 10 then Char.ofNat (48 + n) else Char.ofNat (87 + n)

def u4 (n : Nat) : String :=
  String.mk [hexDigit (n / 4096 % 16), hexDigit (n / 256 % 16),
             hexDigit (n / 16 % 16), hexDigit (n % 16)]

/-- `\uXXXX` escape; code points above the BMP become a surrogate pair. -/
def uEscape (c : Char) : String :=
  let n := c.toNat
  if n ≤ 0xFFFF then "\\u" ++ u4 n
  else
    let m := n - 0x10000
    "\\u" ++ u4 (0xD800 + m / 1024) ++ "\\u" ++ u4 (0xDC00 + m % 1024)

def dumpsChar (c : Char) : String :=
  if c = '"' then "\\\""
  else if c = '\\' then "\\\\"
  else if c = '\n' then "\\n"
  else if c = '\r' then "\\r"
  else if c = '\t' then "\\t"
  else if c = '\x08' then "\\b"
  else if c = '\x0c' then "\\f"
  else if c.toNat < 0x20 || c.toNat > 0x7e then uEscape c
  else String.singleton c

def dumpsString (s : String) : String :=
  "\"" ++ String.join (s.toList.map dumpsChar) ++ "\""

/-- `json.dumps` with the default separators; objects keep insertion order
(as Python dicts do). -/
def Json.dumps : Json → String
  | .null => "null"
  | .bool true => "true"
  | .bool false => "false"
  | .num n => toString n
  | .str s => dumpsString s
  | .arr xs => "[" ++ String.intercalate ", " (xs.attach.map fun x => Json.dumps x.1) ++ "]"
  | .obj m => "\x7b" ++ String.intercalate ", "
      (m.attach.map fun p => dumpsString p.1.1 ++ ": " ++ Json.dumps p.1.2) ++ "\x7d"
decreasing_by
  · have h1 := List.sizeOf_lt_of_mem x.2
    simp only [Json.arr.sizeOf_spec]
    omega
  · have h1 := List.sizeOf_lt_of_mem p.2
    have h2 : sizeOf p.1.2 < sizeOf p.1 := by
      rcases p with ⟨⟨a, b⟩, hp⟩
      simp only [Prod.mk.sizeOf_spec]
      omega
    simp only [Json.obj.sizeOf_spec]
    omega

/-- `enforce_repo_scope(body_bytes)` from github-mcp-proxy.py.  The body is
modelled as a `String` of bytes together with its `json.loads` parse result
(`parsed`), which the caller obtains from the same bytes; `parsed = none`
models a `JSONDecodeError`/`UnicodeDecodeError`.  Returns
`(modified_body_bytes, error_message)`. -/
def enforce_repo_scope (owner repo : String) (body : String) (parsed : Option Json) :
    Option String × Option String :=
  if body = "" then (some body, none)
  else
    match parsed with
    | none => (some body, none)
    | some req =>
      match req.get "method" with
      | some (.str "tools/call") =>
        let params := (req.get "params").getD (.obj [])
        let tool := (params.get "name").getD (.str "unknown")
        match (params.get "arguments").getD (.obj []) with
        | .obj args =>
          if !(toolInList tool KNOWN_TOOLS) then
            (none, some ("Repo scope violation: unknown tool " ++ pyReprJson tool ++
              " is not allowed"))
          else if toolInList tool UNSCOPED_TOOLS then (some body, none)
          else if toolInList tool ORG_TOOLS || toolInList tool BLOCKED_SEARCH_TOOLS then
            (none, some ("Repo scope violation: " ++ toolStr tool ++
              " is not allowed (not repo-scoped)"))
          else if toolInList tool SEARCH_TOOLS then
            match _enforce_search_scope owner repo (toolStr tool) args with
            | (_, some err) => (none, some err)
            | (args2, none) =>
              (some (Json.dumps (setParamsArguments req (args2.getD args))), none)
          else
            match repoFieldLoop (toolStr tool) (REPO_FIELDS owner repo) args false with
            | .error msg => (none, some msg)
            | .ok (args2, true) =>
              (some (Json.dumps (setParamsArguments req args2)), none)
            | .ok (_, false) => (some body, none)
        | _ => (some body, none)
      | _ => (some body, none)

/-! ## github-mcp-proxy.py: header construction and request handling -/

def MCP_HOST : String := "api.githubcopilot.com"

/-- The lowercase header names dropped from the inbound request by
`GitHubMCPProxyHandler.do_request` (auth, host, and the four tool-filtering
headers — header lockdown). -/
def MCP_STRIP_HEADERS : List String :=
  ["authorization", "host",
   "x-mcp-toolsets", "x-mcp-tools", "x-mcp-readonly", "x-mcp-lockdown"]

/-- The header-copy loop: build a fresh dict from the inbound headers,
skipping any whose lowercased name is in `skip` (Python dict assignment:
a repeated exact key overwrites). -/
def copyInbound (skip : List String) (inbound : List (String × String)) :
    List (String × String) :=
  inbound.foldl
    (fun acc p => if skip.contains (pyLower p.1) then acc else dictSet acc p.1 p.2) []

/-- Immutable per-process configuration of the MCP proxy (environment
variables read once at startup). -/
structure McpConfig where
  token : String
  owner : String
  repo : String
  toolsets : String
  tools : String
  readonly : Bool
  lockdown : Bool

/-- `len(body)` for a body modelled as the string of its bytes. -/
def pyLen (s : String) : Nat := s.utf8ByteSize

/-- The upstream-header construction of `GitHubMCPProxyHandler.do_request`:
copy all inbound headers except auth/host/X-MCP-*, then inject
`Authorization`, `Host`, `Content-Length` (if a body is present) and the
host-side tool-filtering headers from the configuration. -/
def applyToolFilterHeaders (cfg : McpConfig) (headers0 : List (String × String)) :
    List (String × String) :=
  let headers := if cfg.toolsets ≠ "" then
      dictSet headers0 "X-MCP-Toolsets" cfg.toolsets else headers0
  let headers := if cfg.tools ≠ "" then
      dictSet headers "X-MCP-Tools" cfg.tools else headers
  let headers := if cfg.readonly then
      dictSet headers "X-MCP-Readonly" "true" else headers
  let headers := if cfg.lockdown then
      dictSet headers "X-MCP-Lockdown" "true" else headers
  headers

/-- The auth/host/content-length part of the upstream header build (the
statements before the tool-filtering injection). -/
def baseUpstreamHeaders (cfg : McpConfig) (inbound : List (String × String))
    (body : Option String) : List (String × String) :=
  let headers := dictSet (dictSet (copyInbound MCP_STRIP_HEADERS inbound)
      "Authorization" ("Bearer " ++ cfg.token)) "Host" MCP_HOST
  if (body.getD "") ≠ "" then
    dictSet headers "Content-Length" (toString (pyLen (body.getD "")))
  else headers

def buildUpstreamHeaders (cfg : McpConfig) (inbound : List (String × String))
    (body : Option String) : List (String × String) :=
  applyToolFilterHeaders cfg (baseUpstreamHeaders cfg inbound body)

inductive McpHandleResult where
  | reject (code : Nat) (msg : String)
  | forward (body : Option String) (headers : List (String × String))
  deriving Repr

def McpHandleResult.isReject : McpHandleResult → Bool
  | .reject _ _ => true
  | .forward _ _ => false

/-- The request-preparation phase of `GitHubMCPProxyHandler.do_request`
(everything before the upstream connection): scope enforcement applies only
to a `POST` with a truthy body; a policy error becomes an HTTP 403 response;
otherwise the (possibly rewritten) body and the rebuilt headers are
forwarded.  `body = none` models a request without `Content-Length`;
`parsed` is the `json.loads` result of the body bytes. -/
def mcpHandle (cfg : McpConfig) (command : String) (body : Option String)
    (parsed : Option Json) (inbound : List (String × String)) : McpHandleResult :=
  if (body.getD "") ≠ "" && command = "POST" then
    match enforce_repo_scope cfg.owner cfg.repo (body.getD "") parsed with
    | (_, some err) => .reject 403 err
    | (body2, none) => .forward body2 (buildUpstreamHeaders cfg inbound body2)
  else
    .forward body (buildUpstreamHeaders cfg inbound body)

/-! ## github-git-proxy.py: path scoping and header construction -/

/-- `base64.b64encode` over a byte list (standard alphabet, `=` padding). -/
def BASE64_CHARS : List Char :=
  "ABCDEFGHIJKLMNOPQRSTUVWXYZabcdefghijklmnopqrstuvwxyz0123456789+/".toList

def b64Char (n : Nat) : Char := BASE64_CHARS.getD n 'A'

def base64Chunks : List Nat → List Char
  | [] => []
  | [a] => [b64Char (a / 4), b64Char (a % 4 * 16), '=', '=']
  | [a, b] => [b64Char (a / 4), b64Char (a % 4 * 16 + b / 16), b64Char (b % 16 * 4), '=']
  | a :: b :: c :: rest =>
    b64Char (a / 4) :: b64Char (a % 4 * 16 + b / 16) ::
      b64Char (b % 16 * 4 + c / 64) :: b64Char (c % 64) :: base64Chunks rest

def base64Encode (bytes : List Nat) : String := String.mk (base64Chunks bytes)

/-- `s.encode()` for the ASCII strings involved here (`x-access-token:` plus
a GitHub token); UTF-8 agrees with the code points on ASCII. -/
def strBytes (s : String) : List Nat := s.toList.map fun c => c.toNat

/-- `_BASIC_AUTH`: `"Basic " + base64("x-access-token:{token}")`. -/
def gitBasicAuth (token : String) : String :=
  "Basic " ++ base64Encode (strBytes ("x-access-token:" ++ token))

/-- `GitProxyHandler._is_scoped_repo`: the query-stripped path
(`self.path.split("?")[0]`) with a `/` appended starts with
`/{owner}/{repo}.git/` or `/{owner}/{repo}/` (`_AUTHED_PREFIXES` is empty —
nothing matches — unless both owner and repo are configured). -/
def _is_scoped_repo (owner repo : String) (path : String) : Bool :=
  if owner = "" || repo = "" then false
  else
    charsStartWith ("/" ++ owner ++ "/" ++ repo ++ ".git/").toList
        (path.toList.takeWhile (fun c => c ≠ '?') ++ ['/']) ||
      charsStartWith ("/" ++ owner ++ "/" ++ repo ++ "/").toList
        (path.toList.takeWhile (fun c => c ≠ '?') ++ ['/'])

/-- The upstream-header construction of `GitProxyHandler.proxy`: drop inbound
`Host`/`Authorization`, set `Host: github.com`, inject the Basic-auth token
only for a scoped path, and set `Content-Length` when a body is present. -/
def gitBuildHeaders (owner repo token : String) (inbound : List (String × String))
    (path : String) (body : Option String) : List (String × String) :=
  let headers2 := dictSet (copyInbound ["host", "authorization"] inbound)
      "Host" "github.com"
  let headers3 := if _is_scoped_repo owner repo path then
      dictSet headers2 "Authorization" (gitBasicAuth token) else headers2
  if (body.getD "") ≠ "" then
    dictSet headers3 "Content-Length" (toString (pyLen (body.getD "")))
  else headers3

/-! ## claude-vm-proxy.py: Python number parsing

`float(x)` / `int(x)` on the values a credential file or token response can
hold.  The string grammar models sign, digits, decimal point, exponent and
the `inf`/`infinity`/`nan` words with surrounding whitespace; Python
additionally accepts underscore digit separators and non-ASCII digits, which
are outside the modelled domain.  Finite values are exact rationals: float
rounding (relevant only at the 2^53 scale) is not modelled. -/

inductive PyFloat where
  | fin (q : ℚ)
  | pinf
  | ninf
  | nan
  deriving Repr, DecidableEq

/-- Value of a non-empty all-digit run; `none` otherwise. -/
def digitsVal? : List Char → Option Nat
  | [] => none
  | cs =>
    if cs.all Char.isDigit then
      some (cs.foldl (fun a c => a * 10 + (c.toNat - 48)) 0)
    else none

/-- Value of a possibly-empty all-digit run (empty ↦ 0); caller checks. -/
def digitsNat (cs : List Char) : Nat :=
  cs.foldl (fun a c => a * 10 + (c.toNat - 48)) 0

def parseSign : List Char → (Bool × List Char)
  | '+' :: r => (false, r)
  | '-' :: r => (true, r)
  | r => (false, r)

/-- `digits`, `digits.`, `digits.digits` or `.digits` (no exponent). -/
def parseMantissa? (cs : List Char) : Option ℚ :=
  let intPart := cs.takeWhile Char.isDigit
  let rest := cs.dropWhile Char.isDigit
  match rest with
  | [] => if intPart.isEmpty then none else some (digitsNat intPart)
  | '.' :: frac =>
    if frac.all Char.isDigit && !(intPart.isEmpty && frac.isEmpty) then
      some ((digitsNat intPart : ℚ) + (digitsNat frac : ℚ) / (10 : ℚ) ^ frac.length)
    else none
  | _ => none

/-- Mantissa with an optional `e`/`E` exponent. -/
def parseFloatBody? (cs : List Char) : Option ℚ :=
  let mant := cs.takeWhile (fun c => c ≠ 'e' && c ≠ 'E')
  let rest := cs.dropWhile (fun c => c ≠ 'e' && c ≠ 'E')
  match rest with
  | [] => parseMantissa? mant
  | _ :: expPart =>
    match parseMantissa? mant with
    | none => none
    | some m =>
      let se := parseSign expPart
      match digitsVal? se.2 with
      | none => none
      | some e => some (if se.1 then m / (10 : ℚ) ^ e else m * (10 : ℚ) ^ e)

/-- Python `float(s)` for a string. -/
def pyParseFloat? (s : String) : Option PyFloat :=
  let cs := ((s.toList.dropWhile pyIsSpaceChar).reverse.dropWhile pyIsSpaceChar).reverse
  let sb := parseSign cs
  let lower := sb.2.map Char.toLower
  if lower = "inf".toList || lower = "infinity".toList then
    some (if sb.1 then .ninf else .pinf)
  else if lower = "nan".toList then some .nan
  else
    match parseFloatBody? sb.2 with
    | some q => some (.fin (if sb.1 then -q else q))
    | none => none

/-- Python `float(v)` on a parsed JSON value; `none` models the
`TypeError`/`ValueError` that `_is_token_expiring` catches. -/
def pyFloat? : Json → Option PyFloat
  | .num n => some (.fin n)
  | .bool b => some (.fin (if b then 1 else 0))
  | .str s => pyParseFloat? s
  | _ => none

/-- Python `int(s)` for a string (base 10: sign and digits only). -/
def pyParseInt? (s : String) : Option Int :=
  let cs := ((s.toList.dropWhile pyIsSpaceChar).reverse.dropWhile pyIsSpaceChar).reverse
  let sb := parseSign cs
  match digitsVal? sb.2 with
  | some n => some (if sb.1 then -(n : Int) else (n : Int))
  | none => none

/-- Python `int(v)` on a parsed JSON value; `none` models an uncaught
`TypeError`/`ValueError`. -/
def pyToInt? : Json → Option Int
  | .num n => some n
  | .bool b => some (if b then 1 else 0)
  | .str s => pyParseInt? s
  | _ => none

/-! ## claude-vm-proxy.py: OAuth credential lifecycle -/

def EXPIRY_BUFFER_SECS : ℚ := 300

/-- `_is_token_expiring(oauth)`: absent or falsy `expiresAt` is never
expiring; an unparsable value (caught `ValueError`/`TypeError`) is never
expiring; otherwise compare `time.time() + 300 > float(expiresAt)/1000`
(`now` is `time.time()` in seconds). -/
def _is_token_expiring (now : ℚ) (oauth : List (String × Json)) : Bool :=
  match dictGet "expiresAt" oauth with
  | none => false
  | some v =>
    if !pyTruthy v then false
    else
      match pyFloat? v with
      | none => false
      | some (.fin q) => decide (now + EXPIRY_BUFFER_SECS > q / 1000)
      | some .pinf => false
      | some .ninf => true
      | some .nan => false

def OAUTH_SCOPES : String :=
  "user:profile user:inference user:sessions:claude_code user:mcp_servers"

/-- Python `s.split()`. -/
def pySplitWs (s : String) : List String :=
  (pyTokens s.toList).map fun cs => String.mk cs

/-- The response-processing part of `_refresh_oauth_token(refresh_token)`:
`status`/`respBody` are the upstream HTTP status and the `json.loads` of its
body (`respBody = none`: the decode raised inside the `try`, caught by the
generic handler); `nowMs` is `int(time.time() * 1000)` sampled at the
`expires_at` line.  Returns `none` for exceptions the source does not catch
(non-dict body, unparsable `expires_in`, non-string `scope`), otherwise
`some (new_oauth, error_message)` exactly as the source returns them. -/
def _refresh_oauth_token (refreshTok : String) (status : Nat) (respBody : Option Json)
    (nowMs : Int) : Option (Option (List (String × Json)) × Option String) :=
  if status ≠ 200 then
    some (none, some ("Token refresh failed (HTTP " ++ toString status ++ ")"))
  else
    match respBody with
    | none => some (none, some "Token refresh failed: <exception text>")
    | some (.obj data) =>
      match dictGet "access_token" data with
      | some access =>
        if !pyTruthy access then
          some (none, some "Token refresh response missing access_token")
        else
          let newRefresh := (dictGet "refresh_token" data).getD (.str refreshTok)
          match (match dictGet "expires_in" data with
                 | none => some (3600 : Int)
                 | some v => pyToInt? v) with
          | none => none
          | some expiresIn =>
            let expiresAt := nowMs + expiresIn * 1000
            match (match dictGet "scope" data with
                   | none => some (pySplitWs OAUTH_SCOPES)
                   | some (.str s) => some (pySplitWs s)
                   | some _ => none) with
            | none => none
            | some scopes =>
              some (some [("accessToken", access),
                          ("refreshToken", newRefresh),
                          ("expiresAt", .num expiresAt),
                          ("scopes", .arr (scopes.map Json.str))], none)
      | none => some (none, some "Token refresh response missing access_token")
    | some _ => none

/-- One iteration of the carry-forward loop of `_ensure_fresh_token`:
`if key in oauth and key not in new_oauth: new_oauth[key] = oauth[key]`. -/
def carryForwardKey (oauth : List (String × Json)) (key : String)
    (acc : List (String × Json)) : List (String × Json) :=
  match dictGet key oauth with
  | some v => if (dictGet key acc).isSome then acc else dictSet acc key v
  | none => acc

/-- The carry-forward loop of `_ensure_fresh_token`: for `subscriptionType`
and then `rateLimitTier`, copy the old record's value into the refreshed
record when the key is present in the old one and absent from the new one. -/
def carryForwardSubscription (oauth newOauth : List (String × Json)) :
    List (String × Json) :=
  carryForwardKey oauth "rateLimitTier" (carryForwardKey oauth "subscriptionType" newOauth)

inductive SaveResult where
  | written (doc : List (String × Json)) (mode : Nat)
  | abandoned (tmpRemains : Bool)
  deriving Repr

/-- `_save_credentials(creds)`: under the lock, re-read the on-disk document
(`diskDoc = none`: missing or corrupt, treated as `{}`), replace only its
`claudeAiOauth` key, write to a temporary file, `chmod 0o600` it and rename
it over the target.  `ioFail` models an `OSError` anywhere in that block:
the write is abandoned with a warning and the cleanup `os.unlink(tmp_path)`
runs inside its own `try/except OSError: pass` — best-effort only.
`tmpCreated` models whether the failure struck after the temporary file had
been created (an early failure, e.g. opening the lock file, leaves nothing
to remove — the unlink merely raises `ENOENT`, which is swallowed), and
`unlinkFail` models the cleanup unlink itself raising `OSError` (also
swallowed): the temporary file remains exactly when it existed and its
removal failed.  Returns `none` for the `KeyError` when `creds` lacks
`claudeAiOauth` (every caller sets that key just before saving). -/
def _save_credentials (ioFail tmpCreated unlinkFail : Bool)
    (diskDoc : Option (List (String × Json)))
    (creds : List (String × Json)) : Option SaveResult :=
  if ioFail then some (.abandoned (tmpCreated && unlinkFail))
  else
    match dictGet "claudeAiOauth" creds with
    | none => none
    | some oauth =>
      some (.written (dictSet (diskDoc.getD []) "claudeAiOauth" oauth) 0o600)

/-! ## The upstream call loops

One logical upstream call is abstracted by an oracle giving, per attempt
index, either a transport failure (a raised exception while connecting /
sending) or a response with its status, whether it announced
`Transfer-Encoding` (streaming) and whether its body sniffs as HTML. -/

inductive Attempt where
  | transportError (e : String)
  | resp (status : Nat) (streaming : Bool) (html : Bool)
  deriving Repr, DecidableEq

def RETRY_DELAYS : List Nat := [1, 2, 4]

def MAX_RETRIES : Nat := 3

/-- Retry condition of the MCP proxy loop: a transport error, or a
non-streaming response with status ≥ 500 (a streaming 5xx has already begun
and is forwarded). -/
def mcpRetryable : Attempt → Bool
  | .transportError _ => true
  | .resp s streaming _ => decide (500 ≤ s) && !streaming

/-- Retry condition of the git proxy loop: a transport error or any
status ≥ 500 (the git proxy always buffers the body first). -/
def gitRetryable : Attempt → Bool
  | .transportError _ => true
  | .resp s _ _ => decide (500 ≤ s)

/-- `last_error` recorded when an attempt is retried (both proxies use the
same strings; the HTML sniff only changes the message). -/
def retryLastError : Attempt → String
  | .transportError e => e
  | .resp s _ html =>
    if html then "GitHub returned HTTP " ++ toString s ++ " (HTML error page)"
    else "GitHub returned HTTP " ++ toString s

inductive UpstreamResult where
  | forwarded (a : Attempt) (attemptsMade : Nat) (delays : List Nat)
  | failed502 (msg : String) (attemptsMade : Nat) (delays : List Nat)
  deriving Repr, DecidableEq

/-- `for attempt in range(MAX_RETRIES + 1)` with
`sleep(RETRY_DELAYS[min(attempt - 1, len - 1)])` before every attempt but
the first; `delays` records the sleeps performed.  Exhaustion produces the
502 message built by `exhaustMsg` from the last recorded error. -/
def retryGo (retryable : Attempt → Bool) (exhaustMsg : String → String)
    (oracle : Nat → Attempt) :
    Nat → Nat → Option String → List Nat → UpstreamResult
  | 0, attempt, lastError, delays =>
    .failed502 (exhaustMsg (lastError.getD "None")) attempt delays
  | fuel + 1, attempt, _lastError, delays =>
    let delays2 := if attempt > 0 then
        delays ++ [RETRY_DELAYS.getD (min (attempt - 1) (RETRY_DELAYS.length - 1)) 0]
      else delays
    let a := oracle attempt
    if retryable a then
      retryGo retryable exhaustMsg oracle fuel (attempt + 1) (some (retryLastError a)) delays2
    else
      .forwarded a (attempt + 1) delays2

/-- The retry loop of `GitHubMCPProxyHandler.do_request`. -/
def mcpDoUpstream (oracle : Nat → Attempt) : UpstreamResult :=
  retryGo mcpRetryable
    (fun e => "GitHub MCP unavailable after " ++ toString (MAX_RETRIES + 1) ++
      " attempts: " ++ e)
    oracle (MAX_RETRIES + 1) 0 none []

/-- The retry loop of `GitProxyHandler.proxy`. -/
def gitDoUpstream (oracle : Nat → Attempt) : UpstreamResult :=
  retryGo gitRetryable
    (fun e => "GitHub unavailable after " ++ toString (MAX_RETRIES + 1) ++
      " attempts: " ++ e)
    oracle (MAX_RETRIES + 1) 0 none []

/-- The upstream call of `ProxyHandler.do_request` in claude-vm-proxy.py:
a single attempt, no loop — a transport failure immediately becomes a 502
with `"Failed to connect to API: {e}"`, and any response (every status,
5xx included) is forwarded. -/
def claudeDoUpstream (oracle : Nat → Attempt) : UpstreamResult :=
  match oracle 0 with
  | .transportError e => .failed502 ("Failed to connect to API: " ++ e) 1 []
  | .resp s st h => .forwarded (.resp s st h) 1 []

/-! ## Header-dictionary lemmas -/

/-- The built headers whose lowercased name lies in `names`. -/
def headersNamed (names : List String) (h : List (String × String)) :
    List (String × String) :=
  h.filter fun p => names.contains (pyLower p.1)

/-- The four controlled tool-filtering header names (lowercase). -/
def XMCP_HEADER_NAMES : List String :=
  ["x-mcp-toolsets", "x-mcp-tools", "x-mcp-readonly", "x-mcp-lockdown"]

/-- The tool-filtering headers as a pure function of the configuration. -/
def xmcpConfigHeaders (cfg : McpConfig) : List (String × String) :=
  (if cfg.toolsets ≠ "" then [("X-MCP-Toolsets", cfg.toolsets)] else []) ++
  (if cfg.tools ≠ "" then [("X-MCP-Tools", cfg.tools)] else []) ++
  (if cfg.readonly then [("X-MCP-Readonly", "true")] else []) ++
  (if cfg.lockdown then [("X-MCP-Lockdown", "true")] else [])

theorem headersNamed_append (names : List String) (a b : List (String × String)) :
    headersNamed names (a ++ b) = headersNamed names a ++ headersNamed names b :=
  List.filter_append a b

theorem headersNamed_eq_nil {names : List String} {h : List (String × String)}
    (hh : ∀ p ∈ h, names.contains (pyLower p.1) = false) : headersNamed names h = [] := by
  unfold headersNamed
  induction h with
  | nil => rfl
  | cons p t ih =>
    have h0 := hh p (List.mem_cons_self p t)
    simp only [List.filter_cons, h0]
    exact ih fun q hq => hh q (List.mem_cons_of_mem p hq)

/-- Setting a fresh key is an append. -/
theorem dictSet_of_fresh {β : Type} {d : List (String × β)} {k : String} (v : β)
    (hfresh : ∀ p ∈ d, p.1 ≠ k) : dictSet d k v = d ++ [(k, v)] := by
  unfold dictSet
  rw [if_neg]
  intro hc
  rw [List.any_eq_true] at hc
  rcases hc with ⟨p, hp, hpk⟩
  exact hfresh p hp (by simpa using hpk)

theorem filter_map_set_not (names : List String) (d : List (String × String))
    (k v : String) (hk : names.contains (pyLower k) = false) :
    ((d.map fun p => if p.1 = k then (k, v) else p).filter
        fun p => names.contains (pyLower p.1)) =
      d.filter fun p => names.contains (pyLower p.1) := by
  induction d with
  | nil => rfl
  | cons p t ih =>
    simp only [List.map_cons, List.filter_cons]
    by_cases hp : p.1 = k
    · rw [if_pos hp]
      have hmem : (pyLower k) ∉ names := by simpa using hk
      simp [List.filter_cons, hp, hmem]
      simpa using ih
    · rw [if_neg hp]
      by_cases hpn : names.contains (pyLower p.1) = true
      · simp only [hpn, ih]
      · simp only [Bool.not_eq_true] at hpn
        simp only [hpn, ih]

/-- Setting a header whose lowercased name is outside `names` leaves the
`names`-filtered view unchanged. -/
theorem headersNamed_dictSet_not (names : List String) (d : List (String × String))
    (k v : String) (hk : names.contains (pyLower k) = false) :
    headersNamed names (dictSet d k v) = headersNamed names d := by
  unfold dictSet
  split
  case isTrue _ => exact filter_map_set_not names d k v hk
  case isFalse _ =>
    rw [headersNamed_append]
    have hone : headersNamed names [(k, v)] = [] := by
      refine headersNamed_eq_nil ?_
      intro p hp
      simp only [List.mem_singleton] at hp
      rw [hp]
      exact hk
    rw [hone, List.append_nil]

/-- Every entry surviving the inbound copy loop has a lowercased name
outside the skip list. -/
theorem copyInbound_not_skipped (skip : List String) (inbound : List (String × String)) :
    ∀ p ∈ copyInbound skip inbound, skip.contains (pyLower p.1) = false := by
  unfold copyInbound
  suffices h : ∀ acc : List (String × String),
      (∀ p ∈ acc, skip.contains (pyLower p.1) = false) →
      ∀ p ∈ inbound.foldl
        (fun acc p => if skip.contains (pyLower p.1) then acc else dictSet acc p.1 p.2) acc,
        skip.contains (pyLower p.1) = false by
    exact h [] (by intro p hp; exact absurd hp (List.not_mem_nil p))
  induction inbound with
  | nil => intro acc hacc p hp; exact hacc p hp
  | cons q rest ih =>
    intro acc hacc p hp
    simp only [List.foldl_cons] at hp
    by_cases hq : skip.contains (pyLower q.1) = true
    · rw [if_pos hq] at hp
      exact ih acc hacc p hp
    · rw [if_neg hq] at hp
      refine ih _ ?_ p hp
      intro r hr
      rcases mem_dictSet hr with h | h
      · exact hacc r h
      · rw [h]
        exact Bool.not_eq_true _ ▸ hq

/-- Applying a list of dict assignments with pairwise-distinct keys, all
fresh for `d`, appends them in order. -/
theorem dictSet_chain (ks : List (String × String)) :
    ∀ d : List (String × String),
      (∀ p ∈ d, ∀ q ∈ ks, p.1 ≠ q.1) →
      (ks.map Prod.fst).Nodup →
      ks.foldl (fun acc q => dictSet acc q.1 q.2) d = d ++ ks := by
  induction ks with
  | nil => intro d _ _; simp
  | cons q rest ih =>
    intro d hfresh hnodup
    simp only [List.foldl_cons]
    rw [dictSet_of_fresh q.2 fun p hp => hfresh p hp q (List.mem_cons_self q rest)]
    simp only [List.map_cons, List.nodup_cons] at hnodup
    rw [ih (d ++ [(q.1, q.2)]) ?_ hnodup.2]
    · simp
    · intro p hp r hr
      rcases List.mem_append.mp hp with h | h
      · exact hfresh p h r (List.mem_cons_of_mem q hr)
      · simp only [List.mem_singleton] at h
        rw [h]
        intro he
        exact hnodup.1 (he ▸ List.mem_map_of_mem Prod.fst hr)

/-- Every configuration-computed tool-filtering header bears one of the four
controlled names. -/
theorem mem_xmcpConfigHeaders {cfg : McpConfig} {q : String × String}
    (hq : q ∈ xmcpConfigHeaders cfg) :
    q.1 = "X-MCP-Toolsets" ∨ q.1 = "X-MCP-Tools" ∨
      q.1 = "X-MCP-Readonly" ∨ q.1 = "X-MCP-Lockdown" := by
  unfold xmcpConfigHeaders at hq
  simp only [List.mem_append] at hq
  rcases hq with ((h | h) | h) | h <;> split at h <;> simp_all

/-- The tool-filtering suffix of the header build appends exactly the
configuration-computed headers when none of their names occur in `d`. -/
theorem applyToolFilter_eq_append (cfg : McpConfig) (d : List (String × String))
    (hd : ∀ p ∈ d, XMCP_HEADER_NAMES.contains (pyLower p.1) = false) :
    applyToolFilterHeaders cfg d = d ++ xmcpConfigHeaders cfg := by
  have hne : ∀ k : String, XMCP_HEADER_NAMES.contains (pyLower k) = true →
      ∀ p ∈ d, p.1 ≠ k := by
    intro k hk p hp he
    have := hd p hp
    rw [he, hk] at this
    exact Bool.noConfusion this
  have hchain : ∀ p ∈ d, ∀ q ∈ xmcpConfigHeaders cfg, p.1 ≠ q.1 := by
    intro p hp q hq
    rcases mem_xmcpConfigHeaders hq with h | h | h | h <;> rw [h] <;>
      exact hne _ (by decide) p hp
  have hnodup : ((xmcpConfigHeaders cfg).map Prod.fst).Nodup := by
    unfold xmcpConfigHeaders
    by_cases h1 : cfg.toolsets ≠ "" <;> by_cases h2 : cfg.tools ≠ "" <;>
      by_cases h3 : cfg.readonly = true <;> by_cases h4 : cfg.lockdown = true <;>
      simp [h1, h2, h3, h4]
  have hfold : applyToolFilterHeaders cfg d =
      (xmcpConfigHeaders cfg).foldl (fun acc q => dictSet acc q.1 q.2) d := by
    unfold applyToolFilterHeaders xmcpConfigHeaders
    by_cases h1 : cfg.toolsets ≠ "" <;> by_cases h2 : cfg.tools ≠ "" <;>
      by_cases h3 : cfg.readonly = true <;> by_cases h4 : cfg.lockdown = true <;>
      simp [h1, h2, h3, h4]
  rw [hfold, dictSet_chain (xmcpConfigHeaders cfg) d hchain hnodup]

/-- Propagating a name-class invariant through one dict assignment. -/
theorem mem_dictSet_names {names : List String} {d : List (String × String)}
    {k v : String}
    (hd : ∀ p ∈ d, names.contains (pyLower p.1) = false)
    (hk : names.contains (pyLower k) = false) :
    ∀ p ∈ dictSet d k v, names.contains (pyLower p.1) = false := by
  intro p hp
  rcases mem_dictSet hp with h | h
  · exact hd p h
  · rw [h]; exact hk

/-- The filter keeps every configuration-computed tool-filtering header. -/
theorem headersNamed_xmcpConfig (cfg : McpConfig) :
    headersNamed XMCP_HEADER_NAMES (xmcpConfigHeaders cfg) = xmcpConfigHeaders cfg := by
  unfold headersNamed
  rw [List.filter_eq_self]
  intro p hp
  rcases mem_xmcpConfigHeaders hp with h | h | h | h <;> rw [h] <;> decide

/-- No configuration-computed tool-filtering header is named `authorization`. -/
theorem headersNamed_auth_xmcpConfig (cfg : McpConfig) :
    headersNamed ["authorization"] (xmcpConfigHeaders cfg) = [] := by
  refine headersNamed_eq_nil ?_
  intro p hp
  rcases mem_xmcpConfigHeaders hp with h | h | h | h <;> rw [h] <;> decide

/-- Every entry of the base header build keeps a name outside the four
controlled tool-filtering names. -/
theorem base_not_xmcp (cfg : McpConfig) (inbound : List (String × String))
    (body : Option String) :
    ∀ p ∈ baseUpstreamHeaders cfg inbound body,
      XMCP_HEADER_NAMES.contains (pyLower p.1) = false := by
  have h0 := copyInbound_not_skipped MCP_STRIP_HEADERS inbound
  have hd0 : ∀ p ∈ copyInbound MCP_STRIP_HEADERS inbound,
      XMCP_HEADER_NAMES.contains (pyLower p.1) = false := by
    intro p hp
    by_contra hx
    rw [Bool.not_eq_false] at hx
    have hmem : pyLower p.1 ∈ XMCP_HEADER_NAMES := by simpa using hx
    have hnot : pyLower p.1 ∉ MCP_STRIP_HEADERS := by simpa using h0 p hp
    refine hnot ?_
    simp only [XMCP_HEADER_NAMES, List.mem_cons, List.mem_singleton,
      List.not_mem_nil, or_false] at hmem
    simp only [MCP_STRIP_HEADERS, List.mem_cons, List.mem_singleton]
    tauto
  have hd1 := mem_dictSet_names (v := "Bearer " ++ cfg.token) hd0
    (k := "Authorization") (by decide)
  have hd2 := mem_dictSet_names (v := MCP_HOST) hd1 (k := "Host") (by decide)
  unfold baseUpstreamHeaders
  by_cases hb : (body.getD "") ≠ ""
  · rw [if_pos hb]
    exact mem_dictSet_names (v := toString (pyLen (body.getD ""))) hd2
      (k := "Content-Length") (by decide)
  · rw [if_neg hb]
    exact hd2

/-- The upstream headers decompose into the base part plus the
configuration-computed tool-filtering headers. -/
theorem buildUpstreamHeaders_decomp (cfg : McpConfig) (inbound : List (String × String))
    (body : Option String) :
    buildUpstreamHeaders cfg inbound body =
      baseUpstreamHeaders cfg inbound body ++ xmcpConfigHeaders cfg := by
  unfold buildUpstreamHeaders
  exact applyToolFilter_eq_append cfg _ (base_not_xmcp cfg inbound body)

/-- The four controlled tool-filtering headers sent upstream are exactly the
configuration-computed ones, whatever the inbound request was. -/
theorem buildUpstream_xmcp (cfg : McpConfig) (inbound : List (String × String))
    (body : Option String) :
    headersNamed XMCP_HEADER_NAMES (buildUpstreamHeaders cfg inbound body) =
      xmcpConfigHeaders cfg := by
  rw [buildUpstreamHeaders_decomp, headersNamed_append,
    headersNamed_eq_nil (base_not_xmcp cfg inbound body), List.nil_append,
    headersNamed_xmcpConfig]

/-- The only `authorization`-named header sent upstream by the MCP proxy is
the injected bearer token. -/
theorem buildUpstream_auth (cfg : McpConfig) (inbound : List (String × String))
    (body : Option String) :
    headersNamed ["authorization"] (buildUpstreamHeaders cfg inbound body) =
      [("Authorization", "Bearer " ++ cfg.token)] := by
  have h0 := copyInbound_not_skipped MCP_STRIP_HEADERS inbound
  have hAuthNil : headersNamed ["authorization"]
      (copyInbound MCP_STRIP_HEADERS inbound) = [] := by
    refine headersNamed_eq_nil ?_
    intro p hp
    by_contra hx
    rw [Bool.not_eq_false] at hx
    have hmem : pyLower p.1 ∈ (["authorization"] : List String) := by simpa using hx
    have hnot : pyLower p.1 ∉ MCP_STRIP_HEADERS := by simpa using h0 p hp
    simp only [List.mem_singleton] at hmem
    exact hnot (by rw [hmem]; decide)
  have hfresh : ∀ p ∈ copyInbound MCP_STRIP_HEADERS inbound, p.1 ≠ "Authorization" := by
    intro p hp he
    have hc := h0 p hp
    have hc2 : MCP_STRIP_HEADERS.contains (pyLower "Authorization") = true := by decide
    rw [he, hc2] at hc
    exact Bool.noConfusion hc
  have hbase : headersNamed ["authorization"] (baseUpstreamHeaders cfg inbound body) =
      [("Authorization", "Bearer " ++ cfg.token)] := by
    unfold baseUpstreamHeaders
    rw [dictSet_of_fresh ("Bearer " ++ cfg.token) hfresh]
    have hstep1 : headersNamed ["authorization"]
        (copyInbound MCP_STRIP_HEADERS inbound ++ [("Authorization", "Bearer " ++ cfg.token)]) =
        [("Authorization", "Bearer " ++ cfg.token)] := by
      rw [headersNamed_append, hAuthNil, List.nil_append]
      rfl
    have hstep2 := headersNamed_dictSet_not ["authorization"]
      (copyInbound MCP_STRIP_HEADERS inbound ++ [("Authorization", "Bearer " ++ cfg.token)])
      "Host" MCP_HOST (by decide)
    by_cases hb : (body.getD "") ≠ ""
    · rw [if_pos hb]
      rw [headersNamed_dictSet_not _ _ "Content-Length" _ (by decide), hstep2, hstep1]
    · rw [if_neg hb, hstep2, hstep1]
  rw [buildUpstreamHeaders_decomp, headersNamed_append, hbase,
    headersNamed_auth_xmcpConfig, List.append_nil]

/-- C4, amended claim: the four controlled headers `X-MCP-Toolsets`,
`X-MCP-Tools`, `X-MCP-Readonly`, `X-MCP-Lockdown` sent upstream are computed
solely from the daemon's startup configuration — any two requests produce the
same four-header view, and no VM-supplied value of those four headers reaches
upstream.  (Other VM headers merely bearing the `X-MCP-` prefix are forwarded
like ordinary headers; see the counterexample.) -/
theorem c4_header_lockdown (cfg : McpConfig)
    (inbound inbound2 : List (String × String)) (body body2 : Option String) :
    headersNamed XMCP_HEADER_NAMES (buildUpstreamHeaders cfg inbound body) =
        xmcpConfigHeaders cfg ∧
      headersNamed XMCP_HEADER_NAMES (buildUpstreamHeaders cfg inbound body) =
        headersNamed XMCP_HEADER_NAMES (buildUpstreamHeaders cfg inbound2 body2) := by
  refine ⟨buildUpstream_xmcp cfg inbound body, ?_⟩
  rw [buildUpstream_xmcp, buildUpstream_xmcp]

/-- C4, counterexample to the claim as stated: the wildcard clause "no
VM-supplied `X-MCP-*` value ever reaches upstream" fails — an inbound header
named `X-MCP-Custom` (whose lowercased name starts with `x-mcp-` but is not
one of the four stripped names) is forwarded upstream verbatim. -/
theorem c4_header_lockdown_counterexample :
    charsStartWith ("x-mcp-".toList) ((pyLower "X-MCP-Custom").toList) = true ∧
    ("X-MCP-Custom", "evil") ∈
      buildUpstreamHeaders ⟨"TOK", "o", "r", "repos", "", false, true⟩
        [("X-MCP-Custom", "evil")] none := by
  constructor
  · decide
  · decide

/-- C10: the MCP proxy applies scope enforcement only to a `POST` carrying a
non-empty body: any other method, or an absent/empty body, is forwarded with
the body bytes unmodified and the bearer token injected, never rejected,
whatever the body parses to. -/
theorem c10_nonpost_passthrough (cfg : McpConfig) (command : String)
    (body : Option String) (parsed : Option Json) (inbound : List (String × String))
    (h : command ≠ "POST" ∨ body = none ∨ body = some "") :
    mcpHandle cfg command body parsed inbound =
        .forward body (buildUpstreamHeaders cfg inbound body) ∧
      headersNamed ["authorization"] (buildUpstreamHeaders cfg inbound body) =
        [("Authorization", "Bearer " ++ cfg.token)] := by
  refine ⟨?_, buildUpstream_auth cfg inbound body⟩
  unfold mcpHandle
  have hcond : ¬ ((body.getD "") ≠ "" && command = "POST") = true := by
    rcases h with h | h | h
    · simp [h]
    · simp [h]
    · simp [h]
  rw [if_neg hcond]

/-- C10 witness: a `PUT` carrying a tools-call body for a foreign repo is
still forwarded unmodified with the bearer token. -/
theorem c10_nonpost_passthrough_witness :
    mcpHandle ⟨"TOK", "wirenboard", "agent-vm", "repos", "", false, true⟩ "PUT"
        (some "B") (some (Json.obj [("method", Json.str "tools/call")])) [] =
      .forward (some "B")
        (buildUpstreamHeaders ⟨"TOK", "wirenboard", "agent-vm", "repos", "", false, true⟩
          [] (some "B")) :=
  (c10_nonpost_passthrough ⟨"TOK", "wirenboard", "agent-vm", "repos", "", false, true⟩
    "PUT" (some "B") (some (Json.obj [("method", Json.str "tools/call")])) []
    (Or.inl (by decide))).1

/-- The git proxy's `authorization`-named upstream headers: exactly the
injected Basic credential for a scoped path and nothing otherwise (the
inbound `Authorization` header is always stripped by the copy loop). -/
theorem gitBuild_auth (owner repo token path : String)
    (inbound : List (String × String)) (body : Option String) :
    headersNamed ["authorization"] (gitBuildHeaders owner repo token inbound path body) =
      if _is_scoped_repo owner repo path then [("Authorization", gitBasicAuth token)]
      else [] := by
  have h0 := copyInbound_not_skipped ["host", "authorization"] inbound
  have hAuthNil : headersNamed ["authorization"]
      (copyInbound ["host", "authorization"] inbound) = [] := by
    refine headersNamed_eq_nil ?_
    intro p hp
    by_contra hx
    rw [Bool.not_eq_false] at hx
    have hmem : pyLower p.1 ∈ (["authorization"] : List String) := by simpa using hx
    have hnot : pyLower p.1 ∉ (["host", "authorization"] : List String) := by
      simpa using h0 p hp
    simp only [List.mem_singleton] at hmem
    exact hnot (by rw [hmem]; decide)
  have h2 : headersNamed ["authorization"]
      (dictSet (copyInbound ["host", "authorization"] inbound) "Host" "github.com") =
      [] := by
    rw [headersNamed_dictSet_not _ _ _ _ (by decide), hAuthNil]
  have hfresh : ∀ p ∈ dictSet (copyInbound ["host", "authorization"] inbound)
      "Host" "github.com", p.1 ≠ "Authorization" := by
    intro p hp he
    rcases mem_dictSet hp with h | h
    · have hc := h0 p h
      have hc2 : (["host", "authorization"] : List String).contains
          (pyLower "Authorization") = true := by decide
      rw [he, hc2] at hc
      exact Bool.noConfusion hc
    · rw [h] at he
      exact absurd he (by decide)
  have hone : headersNamed ["authorization"] [("Authorization", gitBasicAuth token)] =
      [("Authorization", gitBasicAuth token)] := by
    unfold headersNamed
    rw [List.filter_eq_self]
    intro p hp
    simp only [List.mem_singleton] at hp
    rw [hp]
    exact (by decide :
      (["authorization"] : List String).contains (pyLower "Authorization") = true)
  simp only [gitBuildHeaders]
  by_cases hs : _is_scoped_repo owner repo path = true
  · rw [if_pos hs]
    by_cases hb : (body.getD "") ≠ ""
    · rw [if_pos hb,
        headersNamed_dictSet_not ["authorization"] _ "Content-Length" _ (by decide),
        dictSet_of_fresh (gitBasicAuth token) hfresh, headersNamed_append, h2,
        List.nil_append, hone, if_pos hs]
    · rw [if_neg hb, dictSet_of_fresh (gitBasicAuth token) hfresh, headersNamed_append,
        h2, List.nil_append, hone, if_pos hs]
  · rw [if_neg hs]
    by_cases hb : (body.getD "") ≠ ""
    · rw [if_pos hb,
        headersNamed_dictSet_not ["authorization"] _ "Content-Length" _ (by decide), h2,
        if_neg hs]
    · rw [if_neg hb, h2, if_neg hs]

/-- C5, amended claim: with a configured owner and repo, the git proxy's
forwarded request carries the injected `Authorization: Basic
base64("x-access-token:{token}")` — and no other `authorization`-named
header — if and only if the request path, after dropping any query string
and appending a trailing `/`, begins with `/{owner}/{repo}.git/` or
`/{owner}/{repo}/`; otherwise the inbound `Authorization` is stripped and no
credential is injected. -/
theorem c5_git_credential_injection (owner repo token path : String)
    (inbound : List (String × String)) (body : Option String)
    (howner : owner ≠ "") (hrepo : repo ≠ "") :
    headersNamed ["authorization"] (gitBuildHeaders owner repo token inbound path body) =
      if charsStartWith ("/" ++ owner ++ "/" ++ repo ++ ".git/").toList
            (path.toList.takeWhile (fun c => c ≠ '?') ++ ['/']) ||
          charsStartWith ("/" ++ owner ++ "/" ++ repo ++ "/").toList
            (path.toList.takeWhile (fun c => c ≠ '?') ++ ['/']) then
        [("Authorization", gitBasicAuth token)]
      else [] := by
  rw [gitBuild_auth]
  unfold _is_scoped_repo
  have hg : ¬ ((owner = "" || repo = "") = true) := by simp [howner, hrepo]
  rw [if_neg hg]

/-- C5 witness: a scoped clone path receives exactly the Basic credential
even when the VM sent its own `Authorization` header. -/
theorem c5_git_credential_injection_witness :
    headersNamed ["authorization"]
      (gitBuildHeaders "wirenboard" "agent-vm" "t"
        [("Authorization", "Basic ZXZpbA=="), ("Accept", "x")]
        "/wirenboard/agent-vm.git/info/refs?service=git-upload-pack" none) =
      [("Authorization", gitBasicAuth "t")] := by
  have h := c5_git_credential_injection "wirenboard" "agent-vm" "t"
    "/wirenboard/agent-vm.git/info/refs?service=git-upload-pack"
    [("Authorization", "Basic ZXZpbA=="), ("Accept", "x")] none
    (by decide) (by decide)
  rw [h]
  decide

/-- C5, counterexample to the claim as stated: the path
`/wirenboard/agent-vm` (no trailing slash) begins with neither
`/{owner}/{repo}.git/` nor `/{owner}/{repo}/`, yet the code injects the
credential for it (the code appends `/` before testing). -/
theorem c5_git_credential_injection_counterexample :
    charsStartWith ("/wirenboard/agent-vm.git/".toList)
        ("/wirenboard/agent-vm".toList) = false ∧
    charsStartWith ("/wirenboard/agent-vm/".toList)
        ("/wirenboard/agent-vm".toList) = false ∧
    headersNamed ["authorization"]
        (gitBuildHeaders "wirenboard" "agent-vm" "t" [] "/wirenboard/agent-vm" none) =
      [("Authorization", gitBasicAuth "t")] := by
  refine ⟨by decide, by decide, by decide⟩

/-- C6, amended claim: `isExpiring` is true exactly when `expiresAt` is
present, truthy (so not `0`, `""`, `null`, `false`, …), and `float`-parses
to a finite value `q` with `now + 300s > q/1000` (with `-inf` always
expiring and `+inf`/`nan` never); absent, falsy, or unparsable values are
never expiring. -/
theorem c6_is_expiring (now : ℚ) (oauth : List (String × Json)) :
    _is_token_expiring now oauth = true ↔
      ∃ v, dictGet "expiresAt" oauth = some v ∧ pyTruthy v = true ∧
        ((∃ q, pyFloat? v = some (.fin q) ∧ now + EXPIRY_BUFFER_SECS > q / 1000) ∨
          pyFloat? v = some .ninf) := by
  unfold _is_token_expiring
  cases hv : dictGet "expiresAt" oauth with
  | none => simp
  | some v =>
    by_cases ht : pyTruthy v = true
    · cases hf : pyFloat? v with
      | none => simp [ht, hf]
      | some pf => cases pf <;> simp [ht, hf]
    · rw [Bool.not_eq_true] at ht
      simp [ht]

/-- C6, counterexample to the claim as stated: `expiresAt = 0` (epoch 0 ms,
firmly in the past, and `now + 300s > 0/1000` holds) is Python-falsy, so the
code returns `false` where the claim requires `true`. -/
theorem c6_is_expiring_counterexample :
    _is_token_expiring 1000 [("expiresAt", Json.num 0)] = false ∧
      (1000 : ℚ) + EXPIRY_BUFFER_SECS > (0 : ℚ) / 1000 := by
  constructor
  · rfl
  · norm_num [EXPIRY_BUFFER_SECS]

/-- C8, amended claim: with `claudeAiOauth` present in the in-memory
credentials, a successful save writes the re-read on-disk document with
exactly its `claudeAiOauth` key replaced — every other top-level key reads
back unchanged — at mode `0o600`; an I/O failure abandons the write without
raising further (no crash arm), and the temporary file is removed on a
best-effort basis only: no file remains whenever the cleanup unlink succeeds
or no temporary file had been created, but a failing cleanup unlink leaves
the file behind. -/
theorem c8_save_credentials (diskDoc : Option (List (String × Json)))
    (creds : List (String × Json)) (oauth : Json) (tmpCreated unlinkFail : Bool)
    (hc : dictGet "claudeAiOauth" creds = some oauth) :
    (_save_credentials false tmpCreated unlinkFail diskDoc creds =
        some (.written (dictSet (diskDoc.getD []) "claudeAiOauth" oauth) 0o600) ∧
      dictGet "claudeAiOauth" (dictSet (diskDoc.getD []) "claudeAiOauth" oauth) =
        some oauth ∧
      ∀ k, k ≠ "claudeAiOauth" →
        dictGet k (dictSet (diskDoc.getD []) "claudeAiOauth" oauth) =
          dictGet k (diskDoc.getD [])) ∧
    _save_credentials true tmpCreated unlinkFail diskDoc creds =
      some (.abandoned (tmpCreated && unlinkFail)) ∧
    (unlinkFail = false →
      _save_credentials true tmpCreated unlinkFail diskDoc creds =
        some (.abandoned false)) ∧
    (tmpCreated = false →
      _save_credentials true tmpCreated unlinkFail diskDoc creds =
        some (.abandoned false)) := by
  refine ⟨⟨?_, dictGet_dictSet_self _ _ _, fun k hk => dictGet_dictSet_ne _ _ _ _ hk⟩,
    rfl, fun hu => ?_, fun ht => ?_⟩
  · simp only [_save_credentials, hc]
    rfl
  · simp [_save_credentials, hu]
  · simp [_save_credentials, ht]

/-- C8, counterexample to the claim as stated: an `OSError` after the
temporary file was created, followed by the cleanup `os.unlink` itself
failing (both swallowed by the source's `try/except OSError: pass`), leaves
the temporary file behind — so "the temporary file is removed" does not hold
unconditionally on the I/O-failure path. -/
theorem c8_save_credentials_counterexample :
    _save_credentials true true true (some [("other", Json.str "keep")])
        [("claudeAiOauth", Json.obj [])] =
      some (.abandoned true) := rfl

/-- C8 witness: the unrelated top-level key survives a concrete save, and a
concrete I/O failure whose cleanup unlink succeeds leaves no temporary
file. -/
theorem c8_save_credentials_witness :
    _save_credentials false false false
        (some [("other", Json.str "keep"), ("claudeAiOauth", Json.obj [])])
        [("claudeAiOauth", Json.obj [("accessToken", Json.str "a")])] =
      some (.written [("other", Json.str "keep"),
        ("claudeAiOauth", Json.obj [("accessToken", Json.str "a")])] 0o600) ∧
    _save_credentials true true false
        (some [("other", Json.str "keep"), ("claudeAiOauth", Json.obj [])])
        [("claudeAiOauth", Json.obj [("accessToken", Json.str "a")])] =
      some (.abandoned false) := by
  constructor
  · have h := (c8_save_credentials
      (some [("other", Json.str "keep"), ("claudeAiOauth", Json.obj [])])
      [("claudeAiOauth", Json.obj [("accessToken", Json.str "a")])]
      (Json.obj [("accessToken", Json.str "a")]) false false rfl).1.1
    rw [h]
    rfl
  · exact (c8_save_credentials
      (some [("other", Json.str "keep"), ("claudeAiOauth", Json.obj [])])
      [("claudeAiOauth", Json.obj [("accessToken", Json.str "a")])]
      (Json.obj [("accessToken", Json.str "a")]) true false rfl).2.2.1 rfl

/-- `data.get("scope", OAUTH_SCOPES).split()` for a response whose `scope`
is absent or a string. -/
def refreshScopes (d : List (String × Json)) : List String :=
  match dictGet "scope" d with
  | some (.str s) => pySplitWs s
  | _ => pySplitWs OAUTH_SCOPES

/-- C7: a 200 refresh response carrying a non-empty string `access_token`
yields exactly the record `{accessToken, refreshToken, expiresAt, scopes}`
where `refreshToken` is the response's value when the key is present and the
previous token otherwise, and `expiresAt = nowMs + expires_in*1000` — hence
inside `[now_before + expires_in*1000, now_after + expires_in*1000]` whenever
`now_before ≤ nowMs ≤ na`; the produced record never carries
`subscriptionType`/`rateLimitTier`, and the caller's carry-forward loop
copies both from the old record into any record lacking them; a non-200
response, an absent `access_token`, or a falsy one yields an error and no
token. -/
theorem c7_refresh (refreshTok : String) (d : List (String × Json))
    (nowMs nb na expiresIn : Int) (tok : String) (oldOauth : List (String × Json)) :
    (dictGet "access_token" d = some (Json.str tok) → tok ≠ "" →
      (dictGet "expires_in" d = none ∧ expiresIn = 3600 ∨
        (∃ v, dictGet "expires_in" d = some v ∧ pyToInt? v = some expiresIn)) →
      (dictGet "scope" d = none ∨ ∃ s, dictGet "scope" d = some (Json.str s)) →
      _refresh_oauth_token refreshTok 200 (some (.obj d)) nowMs =
        some (some [("accessToken", Json.str tok),
          ("refreshToken", (dictGet "refresh_token" d).getD (Json.str refreshTok)),
          ("expiresAt", Json.num (nowMs + expiresIn * 1000)),
          ("scopes", Json.arr ((refreshScopes d).map Json.str))], none)) ∧
    (nb ≤ nowMs → nowMs ≤ na →
      nb + expiresIn * 1000 ≤ nowMs + expiresIn * 1000 ∧
        nowMs + expiresIn * 1000 ≤ na + expiresIn * 1000) ∧
    dictGet "subscriptionType" [("accessToken", Json.str tok),
      ("refreshToken", (dictGet "refresh_token" d).getD (Json.str refreshTok)),
      ("expiresAt", Json.num (nowMs + expiresIn * 1000)),
      ("scopes", Json.arr ((refreshScopes d).map Json.str))] = none ∧
    dictGet "rateLimitTier" [("accessToken", Json.str tok),
      ("refreshToken", (dictGet "refresh_token" d).getD (Json.str refreshTok)),
      ("expiresAt", Json.num (nowMs + expiresIn * 1000)),
      ("scopes", Json.arr ((refreshScopes d).map Json.str))] = none ∧
    (∀ newOauth : List (String × Json),
      dictGet "subscriptionType" newOauth = none →
      dictGet "rateLimitTier" newOauth = none →
      (∀ v, dictGet "subscriptionType" oldOauth = some v →
        dictGet "subscriptionType" (carryForwardSubscription oldOauth newOauth) = some v) ∧
      (∀ v, dictGet "rateLimitTier" oldOauth = some v →
        dictGet "rateLimitTier" (carryForwardSubscription oldOauth newOauth) = some v)) ∧
    (∀ status : Nat, status ≠ 200 →
      _refresh_oauth_token refreshTok status (some (.obj d)) nowMs =
        some (none, some ("Token refresh failed (HTTP " ++ toString status ++ ")"))) ∧
    (dictGet "access_token" d = none →
      _refresh_oauth_token refreshTok 200 (some (.obj d)) nowMs =
        some (none, some "Token refresh response missing access_token")) ∧
    (∀ v, dictGet "access_token" d = some v → pyTruthy v = false →
      _refresh_oauth_token refreshTok 200 (some (.obj d)) nowMs =
        some (none, some "Token refresh response missing access_token")) := by
  refine ⟨?_, fun h1 h2 => ⟨by omega, by omega⟩, rfl, rfl, ?_, ?_, ?_, ?_⟩
  · intro h1 h2 h3 h4
    have htr : pyTruthy (Json.str tok) = true := by
      simp only [pyTruthy, bne_iff_ne]
      exact h2
    unfold _refresh_oauth_token
    rw [if_neg (by norm_num)]
    simp only [h1, htr, Bool.not_true, Bool.false_eq_true, if_false]
    rcases h3 with ⟨hn, he⟩ | ⟨v, hv, hvi⟩
    · rw [hn]
      rcases h4 with hs | ⟨s, hs⟩ <;>
        simp only [hs, refreshScopes, he]
    · rw [hv]
      rcases h4 with hs | ⟨s, hs⟩ <;>
        simp only [hvi, hs, refreshScopes]
  · intro newOauth hn1 hn2
    constructor
    · intro v hv
      unfold carryForwardSubscription carryForwardKey
      rw [hv, hn1]
      simp only [Option.isSome_none, Bool.false_eq_true, if_false]
      cases hr : dictGet "rateLimitTier" oldOauth with
      | none =>
        exact dictGet_dictSet_self newOauth "subscriptionType" v
      | some w =>
        rw [dictGet_dictSet_ne newOauth "subscriptionType" "rateLimitTier" v (by decide),
          hn2]
        simp only [Option.isSome_none, Bool.false_eq_true, if_false]
        rw [dictGet_dictSet_ne (dictSet newOauth "subscriptionType" v) "rateLimitTier"
          "subscriptionType" w (by decide)]
        exact dictGet_dictSet_self _ _ _
    · intro v hv
      unfold carryForwardSubscription carryForwardKey
      cases hsub : dictGet "subscriptionType" oldOauth with
      | none =>
        rw [hv, hn2]
        simp only [Option.isSome_none, Bool.false_eq_true, if_false]
        exact dictGet_dictSet_self _ _ _
      | some w =>
        rw [hn1]
        simp only [Option.isSome_none, Bool.false_eq_true, if_false]
        rw [hv, dictGet_dictSet_ne newOauth "subscriptionType" "rateLimitTier" w
          (by decide), hn2]
        simp only [Option.isSome_none, Bool.false_eq_true, if_false]
        exact dictGet_dictSet_self _ _ _
  · intro status hstatus
    unfold _refresh_oauth_token
    rw [if_pos hstatus]
  · intro hmiss
    unfold _refresh_oauth_token
    rw [if_neg (by norm_num)]
    simp only [hmiss]
  · intro v hv hfalsy
    unfold _refresh_oauth_token
    rw [if_neg (by norm_num)]
    simp only [hv, hfalsy, Bool.not_false, if_true]

/-- C7 witness: a concrete 200 exchange rotating the refresh token, with a
7200-second expiry and explicit scopes. -/
theorem c7_refresh_witness :
    _refresh_oauth_token "old" 200
        (some (.obj [("access_token", Json.str "new"),
          ("refresh_token", Json.str "r2"), ("expires_in", Json.num 7200),
          ("scope", Json.str "a b")])) 5000 =
      some (some [("accessToken", Json.str "new"), ("refreshToken", Json.str "r2"),
        ("expiresAt", Json.num 7205000),
        ("scopes", Json.arr [Json.str "a", Json.str "b"])], none) := by
  have h := (c7_refresh "old"
    [("access_token", Json.str "new"), ("refresh_token", Json.str "r2"),
      ("expires_in", Json.num 7200), ("scope", Json.str "a b")]
    5000 4999 5001 7200 "new" []).1 rfl (by decide)
    (Or.inr ⟨Json.num 7200, rfl, rfl⟩) (Or.inr ⟨"a b", rfl⟩)
  rw [h]
  rfl

theorem retryGo_exp4 (r : Attempt → Bool) (m : String → String)
    (o : Nat → Attempt) (le : Option String) (ds : List Nat) :
    retryGo r m o (MAX_RETRIES + 1) 0 le ds =
      if r (o 0) then retryGo r m o 3 1 (some (retryLastError (o 0))) ds
      else .forwarded (o 0) 1 ds := rfl

theorem retryGo_exp3 (r : Attempt → Bool) (m : String → String)
    (o : Nat → Attempt) (le : Option String) (ds : List Nat) :
    retryGo r m o 3 1 le ds =
      if r (o 1) then retryGo r m o 2 2 (some (retryLastError (o 1))) (ds ++ [1])
      else .forwarded (o 1) 2 (ds ++ [1]) := rfl

theorem retryGo_exp2 (r : Attempt → Bool) (m : String → String)
    (o : Nat → Attempt) (le : Option String) (ds : List Nat) :
    retryGo r m o 2 2 le ds =
      if r (o 2) then retryGo r m o 1 3 (some (retryLastError (o 2))) (ds ++ [2])
      else .forwarded (o 2) 3 (ds ++ [2]) := rfl

theorem retryGo_exp1 (r : Attempt → Bool) (m : String → String)
    (o : Nat → Attempt) (le : Option String) (ds : List Nat) :
    retryGo r m o 1 3 le ds =
      if r (o 3) then retryGo r m o 0 4 (some (retryLastError (o 3))) (ds ++ [4])
      else .forwarded (o 3) 4 (ds ++ [4]) := rfl

theorem retryGo_exp0 (r : Attempt → Bool) (m : String → String)
    (o : Nat → Attempt) (le : Option String) (ds : List Nat) :
    retryGo r m o 0 4 le ds = .failed502 (m (le.getD "None")) 4 ds := rfl

/-- C9, amended claim: the MCP and git proxies perform each logical upstream
call with bounded retry — at most 4 attempts with sleeps of 1s, 2s, 4s
between them, retrying exactly on transport failure or (buffered) HTTP ≥ 500,
forwarding the first non-retryable outcome immediately, and after exhausting
all 4 attempts failing with a 502 whose message embeds the attempt count and
the last observed error.  The inference proxy, by contrast, performs a single
attempt: a transport failure immediately yields a 502 (`"Failed to connect
to API: {e}"`, no attempt count), and every HTTP response — 5xx included —
is forwarded without retry. -/
theorem c9_retry (oracle : Nat → Attempt) :
    ((∀ j, j < MAX_RETRIES + 1 → mcpRetryable (oracle j) = true) →
      mcpDoUpstream oracle =
        .failed502 ("GitHub MCP unavailable after 4 attempts: " ++
          retryLastError (oracle 3)) 4 [1, 2, 4]) ∧
    (∀ k, k < MAX_RETRIES + 1 → mcpRetryable (oracle k) = false →
      (∀ j, j < k → mcpRetryable (oracle j) = true) →
      mcpDoUpstream oracle = .forwarded (oracle k) (k + 1) (RETRY_DELAYS.take k)) ∧
    ((∀ j, j < MAX_RETRIES + 1 → gitRetryable (oracle j) = true) →
      gitDoUpstream oracle =
        .failed502 ("GitHub unavailable after 4 attempts: " ++
          retryLastError (oracle 3)) 4 [1, 2, 4]) ∧
    (∀ k, k < MAX_RETRIES + 1 → gitRetryable (oracle k) = false →
      (∀ j, j < k → gitRetryable (oracle j) = true) →
      gitDoUpstream oracle = .forwarded (oracle k) (k + 1) (RETRY_DELAYS.take k)) ∧
    (∀ e, oracle 0 = .transportError e →
      claudeDoUpstream oracle = .failed502 ("Failed to connect to API: " ++ e) 1 []) ∧
    (∀ s st h, oracle 0 = .resp s st h →
      claudeDoUpstream oracle = .forwarded (.resp s st h) 1 []) := by
  refine ⟨?_, ?_, ?_, ?_, ?_, ?_⟩
  · intro h
    unfold mcpDoUpstream
    rw [retryGo_exp4 _ _ _ _ _, if_pos (h 0 (by norm_num [MAX_RETRIES])),
      retryGo_exp3 _ _ _ _ _, if_pos (h 1 (by norm_num [MAX_RETRIES])),
      retryGo_exp2 _ _ _ _ _, if_pos (h 2 (by norm_num [MAX_RETRIES])),
      retryGo_exp1 _ _ _ _ _, if_pos (h 3 (by norm_num [MAX_RETRIES])),
      retryGo_exp0 _ _ _ _ _]
    rfl
  · intro k hk hstop hbefore
    have hk4 : k < 4 := by simpa [MAX_RETRIES] using hk
    interval_cases k
    · unfold mcpDoUpstream
      rw [retryGo_exp4 _ _ _ _ _, if_neg (by simp [hstop])]
      rfl
    · unfold mcpDoUpstream
      rw [retryGo_exp4 _ _ _ _ _, if_pos (hbefore 0 (by norm_num [MAX_RETRIES])),
        retryGo_exp3 _ _ _ _ _, if_neg (by simp [hstop])]
      rfl
    · unfold mcpDoUpstream
      rw [retryGo_exp4 _ _ _ _ _, if_pos (hbefore 0 (by norm_num [MAX_RETRIES])),
        retryGo_exp3 _ _ _ _ _, if_pos (hbefore 1 (by norm_num [MAX_RETRIES])),
        retryGo_exp2 _ _ _ _ _, if_neg (by simp [hstop])]
      rfl
    · unfold mcpDoUpstream
      rw [retryGo_exp4 _ _ _ _ _, if_pos (hbefore 0 (by norm_num [MAX_RETRIES])),
        retryGo_exp3 _ _ _ _ _, if_pos (hbefore 1 (by norm_num [MAX_RETRIES])),
        retryGo_exp2 _ _ _ _ _, if_pos (hbefore 2 (by norm_num [MAX_RETRIES])),
        retryGo_exp1 _ _ _ _ _, if_neg (by simp [hstop])]
      rfl
  · intro h
    unfold gitDoUpstream
    rw [retryGo_exp4 _ _ _ _ _, if_pos (h 0 (by norm_num [MAX_RETRIES])),
      retryGo_exp3 _ _ _ _ _, if_pos (h 1 (by norm_num [MAX_RETRIES])),
      retryGo_exp2 _ _ _ _ _, if_pos (h 2 (by norm_num [MAX_RETRIES])),
      retryGo_exp1 _ _ _ _ _, if_pos (h 3 (by norm_num [MAX_RETRIES])),
      retryGo_exp0 _ _ _ _ _]
    rfl
  · intro k hk hstop hbefore
    have hk4 : k < 4 := by simpa [MAX_RETRIES] using hk
    interval_cases k
    · unfold gitDoUpstream
      rw [retryGo_exp4 _ _ _ _ _, if_neg (by simp [hstop])]
      rfl
    · unfold gitDoUpstream
      rw [retryGo_exp4 _ _ _ _ _, if_pos (hbefore 0 (by norm_num [MAX_RETRIES])),
        retryGo_exp3 _ _ _ _ _, if_neg (by simp [hstop])]
      rfl
    · unfold gitDoUpstream
      rw [retryGo_exp4 _ _ _ _ _, if_pos (hbefore 0 (by norm_num [MAX_RETRIES])),
        retryGo_exp3 _ _ _ _ _, if_pos (hbefore 1 (by norm_num [MAX_RETRIES])),
        retryGo_exp2 _ _ _ _ _, if_neg (by simp [hstop])]
      rfl
    · unfold gitDoUpstream
      rw [retryGo_exp4 _ _ _ _ _, if_pos (hbefore 0 (by norm_num [MAX_RETRIES])),
        retryGo_exp3 _ _ _ _ _, if_pos (hbefore 1 (by norm_num [MAX_RETRIES])),
        retryGo_exp2 _ _ _ _ _, if_pos (hbefore 2 (by norm_num [MAX_RETRIES])),
        retryGo_exp1 _ _ _ _ _, if_neg (by simp [hstop])]
      rfl
  · intro e he
    unfold claudeDoUpstream
    rw [he]
  · intro s st h hr
    unfold claudeDoUpstream
    rw [hr]

/-- C9, counterexample to the claim as stated: with an upstream that fails
transport on the first attempt and would succeed on the second, the MCP
proxy retries and forwards the 200, but the inference proxy (claude-vm-proxy)
performs no retry at all and returns a 502 whose message carries no attempt
count — so "every proxy performs each logical upstream call with bounded
retry" is false. -/
theorem c9_retry_counterexample :
    claudeDoUpstream
        (fun n => if n = 0 then .transportError "boom" else .resp 200 false false) =
      .failed502 "Failed to connect to API: boom" 1 [] ∧
    mcpDoUpstream
        (fun n => if n = 0 then .transportError "boom" else .resp 200 false false) =
      .forwarded (.resp 200 false false) 2 [1] := by
  exact ⟨rfl, rfl⟩

/-- C9 witness: four transport failures exhaust the MCP loop into a 502
embedding the attempt count and last error. -/
theorem c9_retry_witness :
    mcpDoUpstream (fun _ => .transportError "x") =
      .failed502 "GitHub MCP unavailable after 4 attempts: x" 4 [1, 2, 4] :=
  (c9_retry (fun _ => .transportError "x")).1 (fun _ _ => rfl)

/-- `do_request` dispatch for a `POST` with a truthy body: the request is
scope-checked and either rejected with 403 or forwarded. -/
theorem mcpHandle_post (cfg : McpConfig) (body : String) (parsed : Option Json)
    (inbound : List (String × String)) (hbody : body ≠ "") :
    mcpHandle cfg "POST" (some body) parsed inbound =
      match enforce_repo_scope cfg.owner cfg.repo body parsed with
      | (_, some err) => .reject 403 err
      | (body2, none) => .forward body2 (buildUpstreamHeaders cfg inbound body2) := by
  unfold mcpHandle
  rw [if_pos (by simp [hbody])]
  simp only [Option.getD_some]

/-- Reduction of `enforce_repo_scope` on a well-shaped `tools/call` request
(object body, object params, object-or-absent arguments) to the tool
dispatch. -/
theorem enforce_repo_scope_toolsCall (owner repo body : String)
    (m pm : List (String × Json)) (tool : Json) (args : List (String × Json))
    (hbody : body ≠ "")
    (hm : dictGet "method" m = some (.str "tools/call"))
    (hp : dictGet "params" m = some (.obj pm))
    (hn : (dictGet "name" pm).getD (.str "unknown") = tool)
    (ha : (dictGet "arguments" pm).getD (.obj []) = .obj args) :
    enforce_repo_scope owner repo body (some (.obj m)) =
      if !(toolInList tool KNOWN_TOOLS) then
        (none, some ("Repo scope violation: unknown tool " ++ pyReprJson tool ++
          " is not allowed"))
      else if toolInList tool UNSCOPED_TOOLS then (some body, none)
      else if toolInList tool ORG_TOOLS || toolInList tool BLOCKED_SEARCH_TOOLS then
        (none, some ("Repo scope violation: " ++ toolStr tool ++
          " is not allowed (not repo-scoped)"))
      else if toolInList tool SEARCH_TOOLS then
        match _enforce_search_scope owner repo (toolStr tool) args with
        | (_, some err) => (none, some err)
        | (args2, none) =>
          (some (Json.dumps (setParamsArguments (.obj m) (args2.getD args))), none)
      else
        match repoFieldLoop (toolStr tool) (REPO_FIELDS owner repo) args false with
        | .error msg => (none, some msg)
        | .ok (args2, true) =>
          (some (Json.dumps (setParamsArguments (.obj m) args2)), none)
        | .ok (_, false) => (some body, none) := by
  unfold enforce_repo_scope
  rw [if_neg hbody]
  simp only [Json.get, hm, hp, hn, ha, Option.getD_some]

/-- C3, amended claim: a `tools/call` whose `params.arguments` is absent or a
JSON object and whose tool name is not in the static classification table is
rejected with a `ScopeViolation` surfaced as HTTP 403 — default-deny; a
`tools/call` whose `arguments` value is not a JSON object, however, is
passed through unmodified before any tool check. -/
theorem c3_unknown_tool_default_deny (cfg : McpConfig) (body : String)
    (m pm : List (String × Json)) (tool : Json)
    (inbound : List (String × String))
    (hbody : body ≠ "")
    (hm : dictGet "method" m = some (.str "tools/call"))
    (hp : dictGet "params" m = some (.obj pm))
    (hn : (dictGet "name" pm).getD (.str "unknown") = tool)
    (hunknown : toolInList tool KNOWN_TOOLS = false) :
    (∀ args : List (String × Json),
      (dictGet "arguments" pm).getD (.obj []) = .obj args →
      mcpHandle cfg "POST" (some body) (some (.obj m)) inbound =
        .reject 403 ("Repo scope violation: unknown tool " ++ pyReprJson tool ++
          " is not allowed")) ∧
    (∀ v : Json, (dictGet "arguments" pm).getD (.obj []) = v →
      (∀ l, v ≠ .obj l) →
      mcpHandle cfg "POST" (some body) (some (.obj m)) inbound =
        .forward (some body) (buildUpstreamHeaders cfg inbound (some body))) := by
  constructor
  · intro args ha
    rw [mcpHandle_post cfg body _ inbound hbody,
      enforce_repo_scope_toolsCall cfg.owner cfg.repo body m pm tool args hbody hm hp hn ha]
    simp only [hunknown, Bool.not_false, if_true]
  · intro v ha hnotobj
    rw [mcpHandle_post cfg body _ inbound hbody]
    have henf : enforce_repo_scope cfg.owner cfg.repo body (some (.obj m)) =
        (some body, none) := by
      unfold enforce_repo_scope
      rw [if_neg hbody]
      simp only [Json.get, hm, hp, hn, ha, Option.getD_some]
    rw [henf]

/-- C3, counterexample to the claim as stated: a `tools/call` naming a tool
outside the table but carrying a JSON *array* as `arguments` is passed
through to upstream, not rejected — the non-dict-arguments guard runs before
the default-deny check. -/
theorem c3_unknown_tool_counterexample :
    toolInList (.str "totally_unknown_tool") KNOWN_TOOLS = false ∧
    (mcpHandle ⟨"TOK", "wirenboard", "agent-vm", "repos", "", false, true⟩ "POST"
        (some "BODY")
        (some (.obj [("method", .str "tools/call"),
          ("params", .obj [("name", .str "totally_unknown_tool"),
            ("arguments", .arr [])])])) []).isReject = false := by
  exact ⟨by decide, rfl⟩

/-- C3 witness: a concrete unknown tool with object arguments is rejected
with HTTP 403. -/
theorem c3_unknown_tool_witness :
    mcpHandle ⟨"TOK", "wirenboard", "agent-vm", "repos", "", false, true⟩ "POST"
        (some "BODY")
        (some (.obj [("method", .str "tools/call"),
          ("params", .obj [("name", .str "totally_unknown_tool"),
            ("arguments", .obj [])])])) [] =
      .reject 403
        "Repo scope violation: unknown tool 'totally_unknown_tool' is not allowed" := by
  have h := (c3_unknown_tool_default_deny
    ⟨"TOK", "wirenboard", "agent-vm", "repos", "", false, true⟩ "BODY"
    [("method", .str "tools/call"),
      ("params", .obj [("name", .str "totally_unknown_tool"), ("arguments", .obj [])])]
    [("name", .str "totally_unknown_tool"), ("arguments", .obj [])]
    (.str "totally_unknown_tool") [] (by decide) rfl rfl rfl (by decide)).1 [] rfl
  rw [h]
  rfl

/-- Reduction of `enforce_repo_scope` to the owner/repo field loop for a
tool classified `RepoFieldScoped` (known, and in none of the special
categories). -/
theorem enforce_repoField (owner repo body : String) (m pm : List (String × Json))
    (t : String) (args : List (String × Json))
    (hbody : body ≠ "")
    (hm : dictGet "method" m = some (.str "tools/call"))
    (hp : dictGet "params" m = some (.obj pm))
    (hn : (dictGet "name" pm).getD (.str "unknown") = .str t)
    (ha : (dictGet "arguments" pm).getD (.obj []) = .obj args)
    (hknown : KNOWN_TOOLS.contains t = true)
    (hnu : UNSCOPED_TOOLS.contains t = false)
    (hno : ORG_TOOLS.contains t = false)
    (hnb : BLOCKED_SEARCH_TOOLS.contains t = false)
    (hns : SEARCH_TOOLS.contains t = false) :
    enforce_repo_scope owner repo body (some (.obj m)) =
      match repoFieldLoop t (REPO_FIELDS owner repo) args false with
      | .error msg => (none, some msg)
      | .ok (args2, true) => (some (Json.dumps (setParamsArguments (.obj m) args2)), none)
      | .ok (_, false) => (some body, none) := by
  rw [enforce_repo_scope_toolsCall owner repo body m pm (.str t) args hbody hm hp hn ha]
  simp only [toolInList, toolStr, hknown, hnu, hno, hnb, hns, Bool.not_true,
    Bool.false_eq_true, if_false, Bool.or_self]

theorem Json.eqStr_self (s : String) : (Json.str s).eqStr s = true := by
  simp [Json.eqStr]

/-- C1: for a `RepoFieldScoped` tool call with configured owner and repo:
a present-but-different `owner` or `repo` argument is rejected with HTTP 403;
matching present arguments pass the original body through byte-for-byte (no
re-serialisation); an absent argument is injected and the body
re-serialised. -/
theorem c1_repo_field_scoped (cfg : McpConfig) (body : String)
    (m pm : List (String × Json)) (t : String) (args : List (String × Json))
    (inbound : List (String × String))
    (hbody : body ≠ "")
    (hm : dictGet "method" m = some (.str "tools/call"))
    (hp : dictGet "params" m = some (.obj pm))
    (hn : (dictGet "name" pm).getD (.str "unknown") = .str t)
    (ha : (dictGet "arguments" pm).getD (.obj []) = .obj args)
    (howner : cfg.owner ≠ "") (hrepo : cfg.repo ≠ "")
    (hknown : KNOWN_TOOLS.contains t = true)
    (hnu : UNSCOPED_TOOLS.contains t = false)
    (hno : ORG_TOOLS.contains t = false)
    (hnb : BLOCKED_SEARCH_TOOLS.contains t = false)
    (hns : SEARCH_TOOLS.contains t = false) :
    (∀ v, dictGet "owner" args = some v → v.eqStr cfg.owner = false →
      mcpHandle cfg "POST" (some body) (some (.obj m)) inbound =
        .reject 403 ("Repo scope violation: " ++ t ++ " called with " ++ "owner" ++
          "=" ++ pyReprJson v ++ ", expected " ++ pyReprJson (.str cfg.owner))) ∧
    (∀ v, (dictGet "owner" args = none ∨
        dictGet "owner" args = some (.str cfg.owner)) →
      dictGet "repo" args = some v → v.eqStr cfg.repo = false →
      mcpHandle cfg "POST" (some body) (some (.obj m)) inbound =
        .reject 403 ("Repo scope violation: " ++ t ++ " called with " ++ "repo" ++
          "=" ++ pyReprJson v ++ ", expected " ++ pyReprJson (.str cfg.repo))) ∧
    (dictGet "owner" args = some (.str cfg.owner) →
      dictGet "repo" args = some (.str cfg.repo) →
      mcpHandle cfg "POST" (some body) (some (.obj m)) inbound =
        .forward (some body) (buildUpstreamHeaders cfg inbound (some body))) ∧
    (dictGet "owner" args = none → dictGet "repo" args = some (.str cfg.repo) →
      mcpHandle cfg "POST" (some body) (some (.obj m)) inbound =
        .forward
          (some (Json.dumps (setParamsArguments (.obj m)
            (dictSet args "owner" (.str cfg.owner)))))
          (buildUpstreamHeaders cfg inbound
            (some (Json.dumps (setParamsArguments (.obj m)
              (dictSet args "owner" (.str cfg.owner))))))) ∧
    (dictGet "owner" args = some (.str cfg.owner) → dictGet "repo" args = none →
      mcpHandle cfg "POST" (some body) (some (.obj m)) inbound =
        .forward
          (some (Json.dumps (setParamsArguments (.obj m)
            (dictSet args "repo" (.str cfg.repo)))))
          (buildUpstreamHeaders cfg inbound
            (some (Json.dumps (setParamsArguments (.obj m)
              (dictSet args "repo" (.str cfg.repo))))))) ∧
    (dictGet "owner" args = none → dictGet "repo" args = none →
      mcpHandle cfg "POST" (some body) (some (.obj m)) inbound =
        .forward
          (some (Json.dumps (setParamsArguments (.obj m)
            (dictSet (dictSet args "owner" (.str cfg.owner)) "repo" (.str cfg.repo)))))
          (buildUpstreamHeaders cfg inbound
            (some (Json.dumps (setParamsArguments (.obj m)
              (dictSet (dictSet args "owner" (.str cfg.owner)) "repo"
                (.str cfg.repo))))))) := by
  have hred := enforce_repoField cfg.owner cfg.repo body m pm t args hbody hm hp hn ha
    hknown hnu hno hnb hns
  refine ⟨?_, ?_, ?_, ?_, ?_, ?_⟩
  · intro v hv hvne
    rw [mcpHandle_post cfg body _ inbound hbody, hred]
    simp [repoFieldLoop, REPO_FIELDS, howner, hv, hvne]
  · intro v hcase hv hvne
    rw [mcpHandle_post cfg body _ inbound hbody, hred]
    rcases hcase with hcase | hcase
    · simp [repoFieldLoop, REPO_FIELDS, howner, hrepo, hcase, hvne,
        dictGet_dictSet_ne args "owner" "repo" (Json.str cfg.owner) (by decide), hv]
    · simp [repoFieldLoop, REPO_FIELDS, howner, hrepo, hcase, hv, hvne, Json.eqStr_self]
  · intro hv hw
    rw [mcpHandle_post cfg body _ inbound hbody, hred]
    simp [repoFieldLoop, REPO_FIELDS, howner, hrepo, hv, hw, Json.eqStr_self]
  · intro hv hw
    rw [mcpHandle_post cfg body _ inbound hbody, hred]
    simp [repoFieldLoop, REPO_FIELDS, howner, hrepo, hv,
      dictGet_dictSet_ne args "owner" "repo" (Json.str cfg.owner) (by decide), hw,
      Json.eqStr_self]
  · intro hv hw
    rw [mcpHandle_post cfg body _ inbound hbody, hred]
    simp [repoFieldLoop, REPO_FIELDS, howner, hrepo, hv, hw, Json.eqStr_self]
  · intro hv hw
    rw [mcpHandle_post cfg body _ inbound hbody, hred]
    simp [repoFieldLoop, REPO_FIELDS, howner, hrepo, hv,
      dictGet_dictSet_ne args "owner" "repo" (Json.str cfg.owner) (by decide), hw,
      Json.eqStr_self]

/-- C1 witness: a `get_commit` call already scoped to the configured repo is
forwarded with the original body bytes untouched. -/
theorem c1_repo_field_scoped_witness :
    mcpHandle ⟨"TOK", "wirenboard", "agent-vm", "repos", "", false, true⟩ "POST"
        (some "RAW-BYTES")
        (some (.obj [("method", .str "tools/call"),
          ("params", .obj [("name", .str "get_commit"),
            ("arguments", .obj [("owner", .str "wirenboard"),
              ("repo", .str "agent-vm"), ("sha", .str "abc")])])])) [] =
      .forward (some "RAW-BYTES")
        (buildUpstreamHeaders ⟨"TOK", "wirenboard", "agent-vm", "repos", "", false, true⟩
          [] (some "RAW-BYTES")) := by
  have h := (c1_repo_field_scoped
    ⟨"TOK", "wirenboard", "agent-vm", "repos", "", false, true⟩ "RAW-BYTES"
    [("method", .str "tools/call"),
      ("params", .obj [("name", .str "get_commit"),
        ("arguments", .obj [("owner", .str "wirenboard"),
          ("repo", .str "agent-vm"), ("sha", .str "abc")])])]
    [("name", .str "get_commit"),
      ("arguments", .obj [("owner", .str "wirenboard"),
        ("repo", .str "agent-vm"), ("sha", .str "abc")])]
    "get_commit"
    [("owner", .str "wirenboard"), ("repo", .str "agent-vm"), ("sha", .str "abc")]
    [] (by decide) rfl rfl rfl rfl (by decide) (by decide)
    (by decide) (by decide) (by decide) (by decide) (by decide)).2.2.1 rfl rfl
  exact h

/-- Reduction of `enforce_repo_scope` to the query rewrite for a
`SearchScoped` tool. -/
theorem enforce_search (owner repo body : String) (m pm : List (String × Json))
    (t : String) (args : List (String × Json))
    (hbody : body ≠ "")
    (hm : dictGet "method" m = some (.str "tools/call"))
    (hp : dictGet "params" m = some (.obj pm))
    (hn : (dictGet "name" pm).getD (.str "unknown") = .str t)
    (ha : (dictGet "arguments" pm).getD (.obj []) = .obj args)
    (hknown : KNOWN_TOOLS.contains t = true)
    (hnu : UNSCOPED_TOOLS.contains t = false)
    (hno : ORG_TOOLS.contains t = false)
    (hnb : BLOCKED_SEARCH_TOOLS.contains t = false)
    (hs : SEARCH_TOOLS.contains t = true) :
    enforce_repo_scope owner repo body (some (.obj m)) =
      match _enforce_search_scope owner repo t args with
      | (_, some err) => (none, some err)
      | (args2, none) =>
        (some (Json.dumps (setParamsArguments (.obj m) (args2.getD args))), none) := by
  rw [enforce_repo_scope_toolsCall owner repo body m pm (.str t) args hbody hm hp hn ha]
  simp only [toolInList, toolStr, hknown, hnu, hno, hnb, hs, Bool.not_true,
    Bool.false_eq_true, if_false, Bool.or_self, if_true]

/-- C2, amended claim: a `SearchScoped` call is rejected with HTTP 403 when
the query carries a `\brepo:(\S+)` qualifier whose value differs from
`{owner}/{repo}`, or any `\b(org|user):(\S+)` qualifier; otherwise, when the
*substring* `repo:{owner}/{repo}` does not occur in the query (the code
tests substring containment, not qualifier presence), the query is replaced
by `strip("repo:{owner}/{repo} " + query)` and the body re-serialised; a
query already containing that substring keeps its text unchanged (though the
body is still re-serialised). -/
theorem c2_search_scoped (cfg : McpConfig) (body : String)
    (m pm : List (String × Json)) (t q : String) (args : List (String × Json))
    (inbound : List (String × String))
    (hbody : body ≠ "")
    (hm : dictGet "method" m = some (.str "tools/call"))
    (hp : dictGet "params" m = some (.obj pm))
    (hn : (dictGet "name" pm).getD (.str "unknown") = .str t)
    (ha : (dictGet "arguments" pm).getD (.obj []) = .obj args)
    (howner : cfg.owner ≠ "") (hrepo : cfg.repo ≠ "")
    (hknown : KNOWN_TOOLS.contains t = true)
    (hnu : UNSCOPED_TOOLS.contains t = false)
    (hno : ORG_TOOLS.contains t = false)
    (hnb : BLOCKED_SEARCH_TOOLS.contains t = false)
    (hs : SEARCH_TOOLS.contains t = true)
    (hq : dictGet "query" args = some (.str q) ∨
      (dictGet "query" args = none ∧ q = "")) :
    (∀ g, (reQualifierValues "repo:" q).find?
        (fun g => g != cfg.owner ++ "/" ++ cfg.repo) = some g →
      mcpHandle cfg "POST" (some body) (some (.obj m)) inbound =
        .reject 403 ("Repo scope violation: " ++ t ++ " query contains repo:" ++ g ++
          ", expected repo:" ++ (cfg.owner ++ "/" ++ cfg.repo))) ∧
    (∀ qualifier value rest,
      (reQualifierValues "repo:" q).find?
        (fun g => g != cfg.owner ++ "/" ++ cfg.repo) = none →
      reOrgUserMatches q = (qualifier, value) :: rest →
      mcpHandle cfg "POST" (some body) (some (.obj m)) inbound =
        .reject 403 ("Repo scope violation: " ++ t ++ " query contains " ++
          qualifier ++ ":" ++ value ++ " (not allowed, use repo: scope)")) ∧
    ((reQualifierValues "repo:" q).find?
        (fun g => g != cfg.owner ++ "/" ++ cfg.repo) = none →
      reOrgUserMatches q = [] →
      charsContains q.toList ("repo:" ++ (cfg.owner ++ "/" ++ cfg.repo)).toList = false →
      mcpHandle cfg "POST" (some body) (some (.obj m)) inbound =
        .forward
          (some (Json.dumps (setParamsArguments (.obj m) (dictSet args "query"
            (.str (pyStrip ("repo:" ++ (cfg.owner ++ "/" ++ cfg.repo) ++ " " ++ q)))))))
          (buildUpstreamHeaders cfg inbound
            (some (Json.dumps (setParamsArguments (.obj m) (dictSet args "query"
              (.str (pyStrip ("repo:" ++ (cfg.owner ++ "/" ++ cfg.repo) ++ " " ++ q))))))))) ∧
    ((reQualifierValues "repo:" q).find?
        (fun g => g != cfg.owner ++ "/" ++ cfg.repo) = none →
      reOrgUserMatches q = [] →
      charsContains q.toList ("repo:" ++ (cfg.owner ++ "/" ++ cfg.repo)).toList = true →
      mcpHandle cfg "POST" (some body) (some (.obj m)) inbound =
        .forward (some (Json.dumps (setParamsArguments (.obj m) args)))
          (buildUpstreamHeaders cfg inbound
            (some (Json.dumps (setParamsArguments (.obj m) args))))) := by
  have hred := enforce_search cfg.owner cfg.repo body m pm t args hbody hm hp hn ha
    hknown hnu hno hnb hs
  have hquery : (match dictGet "query" args with
      | some (.str s) => s
      | _ => "") = q := by
    rcases hq with hq | ⟨hq, hq2⟩
    · rw [hq]
    · rw [hq, hq2]
  refine ⟨?_, ?_, ?_, ?_⟩
  · intro g hf
    rw [mcpHandle_post cfg body _ inbound hbody, hred]
    unfold _enforce_search_scope
    rw [if_neg (by simp [howner, hrepo])]
    simp only [hquery, hf]
  · intro qualifier value rest hf ho
    rw [mcpHandle_post cfg body _ inbound hbody, hred]
    unfold _enforce_search_scope
    rw [if_neg (by simp [howner, hrepo])]
    simp only [hquery, hf, ho]
  · intro hf ho hc
    rw [mcpHandle_post cfg body _ inbound hbody, hred]
    unfold _enforce_search_scope
    rw [if_neg (by simp [howner, hrepo])]
    simp only [hquery, hf, ho, hc, Bool.false_eq_true, if_false, Option.getD_some]
  · intro hf ho hc
    rw [mcpHandle_post cfg body _ inbound hbody, hred]
    unfold _enforce_search_scope
    rw [if_neg (by simp [howner, hrepo])]
    simp only [hquery, hf, ho, hc, if_true, Option.getD_some]

/-- C2, counterexample to the claim as stated: the query
`xrepo:wirenboard/agent-vm` carries no `repo:` qualifier (no `\b` match) and
no `org:`/`user:` qualifier, so the claim requires it to be replaced by
`repo:wirenboard/agent-vm xrepo:wirenboard/agent-vm`; but the code's
substring test finds `repo:wirenboard/agent-vm` inside it and leaves the
query unchanged. -/
theorem c2_search_scoped_counterexample :
    reQualifierValues "repo:" "xrepo:wirenboard/agent-vm" = [] ∧
    reOrgUserMatches "xrepo:wirenboard/agent-vm" = [] ∧
    _enforce_search_scope "wirenboard" "agent-vm" "search_code"
        [("query", Json.str "xrepo:wirenboard/agent-vm")] =
      (some [("query", Json.str "xrepo:wirenboard/agent-vm")], none) ∧
    "xrepo:wirenboard/agent-vm" ≠
      "repo:wirenboard/agent-vm " ++ "xrepo:wirenboard/agent-vm" := by
  refine ⟨rfl, rfl, rfl, by decide⟩

/-- C2 witness: spec scenario A — `search_code{query:"def main"}` under scope
`wirenboard/agent-vm` is forwarded with the query rewritten to
`repo:wirenboard/agent-vm def main`. -/
theorem c2_search_scoped_witness :
    mcpHandle ⟨"TOK", "wirenboard", "agent-vm", "repos", "", false, true⟩ "POST"
        (some "BODY")
        (some (.obj [("method", .str "tools/call"),
          ("params", .obj [("name", .str "search_code"),
            ("arguments", .obj [("query", .str "def main")])])])) [] =
      .forward
        (some (Json.dumps (setParamsArguments
          (.obj [("method", .str "tools/call"),
            ("params", .obj [("name", .str "search_code"),
              ("arguments", .obj [("query", .str "def main")])])])
          [("query", .str "repo:wirenboard/agent-vm def main")])))
        (buildUpstreamHeaders ⟨"TOK", "wirenboard", "agent-vm", "repos", "", false, true⟩
          [] (some (Json.dumps (setParamsArguments
            (.obj [("method", .str "tools/call"),
              ("params", .obj [("name", .str "search_code"),
                ("arguments", .obj [("query", .str "def main")])])])
            [("query", .str "repo:wirenboard/agent-vm def main")])))) := by
  have h := (c2_search_scoped
    ⟨"TOK", "wirenboard", "agent-vm", "repos", "", false, true⟩ "BODY"
    [("method", .str "tools/call"),
      ("params", .obj [("name", .str "search_code"),
        ("arguments", .obj [("query", .str "def main")])])]
    [("name", .str "search_code"), ("arguments", .obj [("query", .str "def main")])]
    "search_code" "def main" [("query", .str "def main")] []
    (by decide) rfl rfl rfl rfl (by decide) (by decide) (by decide) (by decide)
    (by decide) (by decide) (by decide) (Or.inl rfl)).2.2.1 rfl rfl rfl
  rw [h]
  rfl

end AgentVM
